import Mathlib

/-!
# Pulse: the native resource monitor (`SystemResourceMonitorModule.kt`)

A shallow embedding of the polling bridge of the Pulse dashboard: the five
`send*Update` functions, the sampling round shared by the timer task and
`forceUpdate`, and the `startMonitoring` / `stopMonitoring` controller; and, of the
display (`MainScreen.js`), the fallback source `getFallbackData`, the `onStorageUpdate`
listener and `storagePercent`.

Conventions of the embedding.

* Kotlin `Long` and `Int` values are mathematical integers; every arithmetic
  operation of the source on a `Long` is followed by an explicit wrap to 64 bits.
* Kotlin `Float` and `Double` values are carried by `FP`: an exact rational, an
  infinity or NaN.  Division by zero, infinities and NaN follow IEEE 754; rounding
  of finite results to the nearest representable value is not modelled (nor overflow of
  a finite result, the magnitudes computed here staying far below the largest `Float`),
  and zero is unsigned (the source only ever divides by a constant or by a value
  converted from an integer, whose zero is `+0.0`).
* Platform calls (`ActivityManager`, the battery broadcast, `StatFs`,
  `ConnectivityManager`, `TrafficStats`, the clock) are inputs: each category's read is
  an `Except Exn _`, where `.error e` is the exception the call throws.
* A `try { .. } catch (e: Exception) { e.printStackTrace() }` block is `catching`;
  `sendEvent` appends to the log of emitted events and does not throw.
* JavaScript numbers are `FP` values as well; the string returned by `toFixed` is
  carried by the number it denotes (`JSVal.fixed`), which is what the arithmetic and the
  comparison of `storagePercent` convert it back to.  The storage listener and
  `storagePercent` round every quotient and product to binary64 (`FP.div64`,
  `FP.mul64`), since `toFixed(0)` turns a last-bit difference into a different integer;
  the fallback source keeps exact results.  An `await` of a rejected promise is `.error`.
* The controller is a step function on `Sys`: the methods called from JS, the timer
  thread starting and finishing a run of its task, and the main looper running a posted
  round are the atomic actions; time is abstracted to the order of the actions.
-/

namespace Pulse

/-! ## Machine integers -/

/-- Two's-complement wrap of an integer to a Kotlin `Long` (64 bits). -/
def wrapLong (i : Int) : Int := (i + 2 ^ 63) % 2 ^ 64 - 2 ^ 63

/-- Range of a Kotlin `Long`. -/
def isLong (i : Int) : Prop := -2 ^ 63 ≤ i ∧ i < 2 ^ 63

instance (i : Int) : Decidable (isLong i) := by unfold isLong; infer_instance

/-- Kotlin `a - b` on `Long`. -/
def Long.sub (a b : Int) : Int := wrapLong (a - b)

/-- Kotlin `a * b` on `Long`. -/
def Long.mul (a b : Int) : Int := wrapLong (a * b)

/-! ## Floating-point values -/

/-- A Kotlin `Float` / `Double` value: finite (carried exactly), an infinity
(`inf true` is negative infinity) or NaN. -/
inductive FP where
  | fin (q : ℚ)
  | inf (neg : Bool)
  | nan
  deriving DecidableEq, Repr

namespace FP

/-- Conversion `Int.toFloat()`, `Long.toDouble()`. -/
def ofInt (i : Int) : FP := fin (i : ℚ)

/-- IEEE multiplication. -/
def mul : FP → FP → FP
  | fin a, fin b => fin (a * b)
  | fin a, inf s => if a = 0 then nan else inf (xor s (decide (a < 0)))
  | inf s, fin b => if b = 0 then nan else inf (xor s (decide (b < 0)))
  | inf s, inf t => inf (xor s t)
  | nan, _ => nan
  | _, nan => nan

/-- IEEE division; a zero divisor is `+0.0`. -/
def div : FP → FP → FP
  | fin a, fin b =>
    if b = 0 then (if a = 0 then nan else inf (decide (a < 0))) else fin (a / b)
  | fin _, inf _ => fin 0
  | inf s, fin b => inf (xor s (decide (b < 0)))
  | inf _, inf _ => nan
  | nan, _ => nan
  | _, nan => nan

/-- IEEE subtraction. -/
def sub : FP → FP → FP
  | fin a, fin b => fin (a - b)
  | fin _, inf s => inf (!s)
  | inf s, fin _ => inf s
  | inf s, inf t => if s = t then nan else inf s
  | nan, _ => nan
  | _, nan => nan

/-- Truncation of a rational toward zero. -/
def truncQ (q : ℚ) : Int := if 0 ≤ q then ⌊q⌋ else ⌈q⌉

/-- Kotlin `Double.toInt()`: NaN gives 0, the rest is truncated toward zero and
saturated to the `Int` range. -/
def toInt : FP → Int
  | nan => 0
  | inf false => 2147483647
  | inf true => -2147483648
  | fin q => max (-2147483648) (min 2147483647 (truncQ q))

/-- The value is a finite number. -/
def isFinite : FP → Bool
  | fin _ => true
  | _ => false

end FP

/-! ## Events and module state -/

/-- An exception thrown by a platform call (its message). -/
abbrev Exn := String

deriving instance DecidableEq for Except

/-- An event handed to `sendEvent`, with the entries of its parameter map. -/
inductive Event where
  | onCPUUpdate (usage : FP)
  | onMemoryUpdate (used total available usagePercent : FP)
  | onBatteryUpdate (level : FP) (isCharging : Bool) (timeRemaining timeToFull : Int)
  | onStorageUpdate (total free used : FP)
  | onNetworkUpdate (type : String) (downloadSpeed uploadSpeed : FP)
  deriving DecidableEq, Repr

/-- The mutable fields of `SystemResourceMonitorModule`; `monitorTimer` holds the
identity of a `Timer` object (`none` is `null`). -/
structure Module where
  monitorTimer : Option Nat
  lastTotalRxBytes : Int
  lastTotalTxBytes : Int
  lastUpdateTime : Int
  deriving DecidableEq, Repr

/-- A freshly constructed module (the field initialisers). -/
def Module.fresh : Module :=
  { monitorTimer := none, lastTotalRxBytes := 0, lastTotalTxBytes := 0, lastUpdateTime := 0 }

/-- The module together with the events emitted so far, oldest first. -/
structure World where
  module : Module
  log : List Event
  deriving DecidableEq, Repr

/-- The function `sendEvent`: hands the event to the JS event emitter. -/
def sendEvent (ev : Event) (w : World) : Except Exn World :=
  pure { w with log := w.log ++ [ev] }

/-! ## Platform readings -/

/-- The result of `ActivityManager.getMemoryInfo`. -/
structure MemoryInfo where
  totalMem : Int
  availMem : Int
  deriving DecidableEq, Repr

/-- The extras of the sticky `ACTION_BATTERY_CHANGED` intent; `none` is a missing extra. -/
structure BatteryIntent where
  level : Option Int
  scale : Option Int
  status : Option Int
  deriving DecidableEq, Repr

/-- The block statistics of `StatFs`. -/
structure StatFs where
  blockSizeLong : Int
  blockCountLong : Int
  availableBlocksLong : Int
  deriving DecidableEq, Repr

/-- The fields of `NetworkInfo` the module reads. -/
structure NetworkInfo where
  isConnected : Bool
  type : Int
  deriving DecidableEq, Repr

/-- What one network tick reads: `cm.activeNetworkInfo` (`none` is `null`), and the
values `TrafficStats.getTotalRxBytes()`, `TrafficStats.getTotalTxBytes()` and
`System.currentTimeMillis()` have at that tick. -/
structure NetworkSample where
  activeNetwork : Option NetworkInfo
  totalRxBytes : Int
  totalTxBytes : Int
  currentTimeMillis : Int
  deriving DecidableEq, Repr

/-- Android constant `ConnectivityManager.TYPE_MOBILE`. -/
def TYPE_MOBILE : Int := 0
/-- Android constant `ConnectivityManager.TYPE_WIFI`. -/
def TYPE_WIFI : Int := 1
/-- Android constant `BatteryManager.BATTERY_STATUS_CHARGING`. -/
def BATTERY_STATUS_CHARGING : Int := 2
/-- Android constant `BatteryManager.BATTERY_STATUS_FULL`. -/
def BATTERY_STATUS_FULL : Int := 5

/-- Everything one sampling round reads from the platform, one entry per category. -/
structure Env where
  cpu : Except Exn FP
  memory : Except Exn MemoryInfo
  battery : Except Exn (Option BatteryIntent)
  storage : Except Exn StatFs
  network : Except Exn NetworkSample

/-! ## The five senders -/

/-- A block `try { body } catch (e: Exception) { e.printStackTrace() }` entered in
world `w`: when the body throws, the exception is swallowed and execution goes on
from `w` (every throwing call of the source comes before the first field write). -/
def catching (w : World) (body : Except Exn World) : Except Exn World :=
  match body with
  | .ok w1 => .ok w1
  | .error _ => .ok w

/-- The function `sendCPUUpdate`; `cpu` is what `readCPUUsage()` returns. -/
def sendCPUUpdate (cpu : Except Exn FP) (w : World) : Except Exn World :=
  catching w do
    let cpuUsage ← cpu
    sendEvent (Event.onCPUUpdate cpuUsage) w

/-- The event built by `sendMemoryUpdate` from a memory reading. -/
def memoryEvent (memInfo : MemoryInfo) : Event :=
  let totalMemory := memInfo.totalMem
  let availableMemory := memInfo.availMem
  let usedMemory := Long.sub totalMemory availableMemory
  let usagePercent :=
    FP.mul (FP.div (FP.ofInt usedMemory) (FP.ofInt totalMemory)) (FP.fin 100)
  Event.onMemoryUpdate (FP.ofInt usedMemory) (FP.ofInt totalMemory)
    (FP.ofInt availableMemory) usagePercent

/-- The function `sendMemoryUpdate`. -/
def sendMemoryUpdate (memory : Except Exn MemoryInfo) (w : World) : Except Exn World :=
  catching w do
    let memInfo ← memory
    sendEvent (memoryEvent memInfo) w

/-- The expression `batteryStatus?.getIntExtra(name, -1) ?: -1`. -/
def intExtra (batteryStatus : Option BatteryIntent) (field : BatteryIntent → Option Int) :
    Int :=
  match batteryStatus with
  | some intent => (field intent).getD (-1)
  | none => -1

/-- The event built by `sendBatteryUpdate` from the sticky battery intent
(`none` when `registerReceiver` returns `null`).  The 32-bit rounding of `batteryPct` is
not modelled: the published level and the time field that is not 0 are the exact values,
which the source approximates (level 53 of 100 is published as 52.999996). -/
def batteryEvent (batteryStatus : Option BatteryIntent) : Event :=
  let level := intExtra batteryStatus BatteryIntent.level
  let scale := intExtra batteryStatus BatteryIntent.scale
  let batteryPct := FP.mul (FP.div (FP.ofInt level) (FP.ofInt scale)) (FP.fin 100)
  let status := intExtra batteryStatus BatteryIntent.status
  let isCharging :=
    decide (status = BATTERY_STATUS_CHARGING) || decide (status = BATTERY_STATUS_FULL)
  let timeRemaining :=
    if !isCharging then
      FP.toInt (FP.mul (FP.mul (FP.div batteryPct (FP.fin 100)) (FP.fin 4)) (FP.fin 3600))
    else
      0
  let timeToFull :=
    if isCharging then
      FP.toInt (FP.mul (FP.mul (FP.div (FP.sub (FP.fin 100) batteryPct) (FP.fin 100))
        (FP.fin 2)) (FP.fin 3600))
    else
      0
  Event.onBatteryUpdate batteryPct isCharging timeRemaining timeToFull

/-- The function `sendBatteryUpdate`. -/
def sendBatteryUpdate (battery : Except Exn (Option BatteryIntent)) (w : World) :
    Except Exn World :=
  catching w do
    let batteryStatus ← battery
    sendEvent (batteryEvent batteryStatus) w

/-- The event built by `sendStorageUpdate` from the block statistics. -/
def storageEvent (stat : StatFs) : Event :=
  let blockSize := stat.blockSizeLong
  let totalBlocks := stat.blockCountLong
  let availableBlocks := stat.availableBlocksLong
  let totalBytes := Long.mul totalBlocks blockSize
  let freeBytes := Long.mul availableBlocks blockSize
  let usedBytes := Long.sub totalBytes freeBytes
  Event.onStorageUpdate (FP.ofInt totalBytes) (FP.ofInt freeBytes) (FP.ofInt usedBytes)

/-- The function `sendStorageUpdate`. -/
def sendStorageUpdate (storage : Except Exn StatFs) (w : World) : Except Exn World :=
  catching w do
    let stat ← storage
    sendEvent (storageEvent stat) w

/-- The `when (activeNetwork.type)` of `sendNetworkUpdate`. -/
def networkTypeOf (type : Int) : String :=
  if type = TYPE_WIFI then "wifi"
  else if type = TYPE_MOBILE then "cellular"
  else "other"

/-- The rate expression `(current - last) * 8.0 / timeDiff / 1000.0`. -/
def rateOf (current last timeDiff : Int) : FP :=
  FP.div (FP.div (FP.mul (FP.ofInt (Long.sub current last)) (FP.fin 8)) (FP.ofInt timeDiff))
    (FP.fin 1000)

/-- The pair `(downloadSpeed, uploadSpeed)` after the two nested `if`s of the
connected branch of `sendNetworkUpdate`. -/
def connectedSpeeds (m : Module) (currentRxBytes currentTxBytes currentTime : Int) :
    FP × FP :=
  if m.lastUpdateTime > 0 then
    let timeDiff := Long.sub currentTime m.lastUpdateTime
    if timeDiff > 0 then
      (rateOf currentRxBytes m.lastTotalRxBytes timeDiff,
        rateOf currentTxBytes m.lastTotalTxBytes timeDiff)
    else
      (FP.fin 0, FP.fin 0)
  else
    (FP.fin 0, FP.fin 0)

/-- One network tick on the module fields: the new fields and the event built by
`sendNetworkUpdate`. -/
def networkTick (m : Module) (s : NetworkSample) : Module × Event :=
  match s.activeNetwork with
  | some activeNetwork =>
    if activeNetwork.isConnected then
      let networkType := networkTypeOf activeNetwork.type
      let currentRxBytes := s.totalRxBytes
      let currentTxBytes := s.totalTxBytes
      let currentTime := s.currentTimeMillis
      let speeds := connectedSpeeds m currentRxBytes currentTxBytes currentTime
      ({ m with
          lastTotalRxBytes := currentRxBytes
          lastTotalTxBytes := currentTxBytes
          lastUpdateTime := currentTime },
        Event.onNetworkUpdate networkType speeds.1 speeds.2)
    else
      (m, Event.onNetworkUpdate "none" (FP.fin 0) (FP.fin 0))
  | none => (m, Event.onNetworkUpdate "none" (FP.fin 0) (FP.fin 0))

/-- The function `sendNetworkUpdate`. -/
def sendNetworkUpdate (network : Except Exn NetworkSample) (w : World) : Except Exn World :=
  catching w do
    let sample ← network
    let r := networkTick w.module sample
    sendEvent r.2 { w with module := r.1 }

/-- One sampling round: the body posted by the timer task and by `forceUpdate`. -/
def samplingRound (env : Env) (w : World) : Except Exn World := do
  let w1 ← sendCPUUpdate env.cpu w
  let w2 ← sendMemoryUpdate env.memory w1
  let w3 ← sendBatteryUpdate env.battery w2
  let w4 ← sendStorageUpdate env.storage w3
  sendNetworkUpdate env.network w4

/-- A connected network reading of type wifi. -/
def wifiSample (rx tx t : Int) : NetworkSample :=
  { activeNetwork := some { isConnected := true, type := TYPE_WIFI },
    totalRxBytes := rx, totalTxBytes := tx, currentTimeMillis := t }

/-- A reading with no active network. -/
def noneSample (rx tx t : Int) : NetworkSample :=
  { activeNetwork := none, totalRxBytes := rx, totalTxBytes := tx, currentTimeMillis := t }

/-- Whether the reading has an active, connected network. -/
def NetworkSample.connected (s : NetworkSample) : Bool :=
  match s.activeNetwork with
  | some activeNetwork => activeNetwork.isConnected
  | none => false

/-- The `type` entry a tick with this reading publishes. -/
def NetworkSample.connectionType (s : NetworkSample) : String :=
  match s.activeNetwork with
  | some activeNetwork =>
    if activeNetwork.isConnected then networkTypeOf activeNetwork.type else "none"
  | none => "none"

/-- The module fields after a connected tick with this reading. -/
def Module.store (m : Module) (s : NetworkSample) : Module :=
  { m with
    lastTotalRxBytes := s.totalRxBytes
    lastTotalTxBytes := s.totalTxBytes
    lastUpdateTime := s.currentTimeMillis }

/-- A connected network reading of the given `NetworkInfo.type`. -/
def connectedSample (type rx tx t : Int) : NetworkSample :=
  { activeNetwork := some { isConnected := true, type := type },
    totalRxBytes := rx, totalTxBytes := tx, currentTimeMillis := t }

/-- The events a sender emits: the one built from the reading, or none when the read threw. -/
def emitted {α : Type} (reading : Except Exn α) (build : α → Event) : List Event :=
  match reading with
  | .ok a => [build a]
  | .error _ => []

/-- The module fields after the network sender ran on this read. -/
def Module.afterNetwork (m : Module) (network : Except Exn NetworkSample) : Module :=
  match network with
  | .ok s => (networkTick m s).1
  | .error _ => m

/-! ## The controller -/

/-- A `java.util.Timer` object created by `startMonitoring`, with the schedule of its
task; `executing` holds while the timer thread is inside `TimerTask.run`. -/
structure Timer where
  cancelled : Bool
  delay : Nat
  period : Nat
  executing : Bool
  deriving DecidableEq, Repr

/-- The controller: the module and its event log, every `Timer` created so far (a
timer's identity is its position), and the number of sampling rounds posted to
`mainHandler` that have not run yet. -/
structure Sys where
  world : World
  timers : List Timer
  posted : Nat
  deriving DecidableEq, Repr

/-- The state after construction of the module. -/
def Sys.init : Sys :=
  { world := { module := Module.fresh, log := [] }, timers := [], posted := 0 }

/-- Apply `f` to the timer at position `i`. -/
def modifyAt (f : Timer → Timer) : Nat → List Timer → List Timer
  | _, [] => []
  | 0, t :: ts => f t :: ts
  | i + 1, t :: ts => t :: modifyAt f i ts

/-- The call `monitorTimer?.cancel()`: the held timer, if any, becomes cancelled (a task
of it that is executing is not interrupted). -/
def cancelHeld (s : Sys) : List Timer :=
  match s.world.module.monitorTimer with
  | some i => modifyAt (fun t => { t with cancelled := true }) i s.timers
  | none => s.timers

/-- The timer armed by `startMonitoring`: `scheduleAtFixedRate(task, 0, 2000)`. -/
def armedTimer : Timer :=
  { cancelled := false, delay := 0, period := 2000, executing := false }

/-- The method `startMonitoring`. -/
def startMonitoring (s : Sys) : Sys :=
  let timers := cancelHeld s
  { world := { s.world with
      module := { s.world.module with monitorTimer := some timers.length } },
    timers := timers ++ [armedTimer],
    posted := s.posted }

/-- The method `stopMonitoring`. -/
def stopMonitoring (s : Sys) : Sys :=
  { world := { s.world with module := { s.world.module with monitorTimer := none } },
    timers := cancelHeld s,
    posted := s.posted }

/-- The method `forceUpdate`: posts one sampling round to `mainHandler`. -/
def forceUpdate (s : Sys) : Sys :=
  { s with posted := s.posted + 1 }

/-- What can happen to the controller. -/
inductive Action where
  | startMonitoring
  | stopMonitoring
  | forceUpdate
  | taskBegin (i : Nat)
  | taskPost (i : Nat)
  | handlerRun (env : Env)

/-- The thread of timer `i` starts a run of its task: possible only while the timer is
not cancelled and its single thread is idle. -/
def taskBegin (i : Nat) (s : Sys) : Option Sys :=
  match s.timers[i]? with
  | some t =>
    if !t.cancelled && !t.executing then
      some { s with timers := modifyAt (fun t => { t with executing := true }) i s.timers }
    else
      none
  | none => none

/-- The executing task of timer `i` performs its `mainHandler.post { .. }` and returns. -/
def taskPost (i : Nat) (s : Sys) : Option Sys :=
  match s.timers[i]? with
  | some t =>
    if t.executing then
      some { s with
        timers := modifyAt (fun t => { t with executing := false }) i s.timers
        posted := s.posted + 1 }
    else
      none
  | none => none

/-- The main looper runs the oldest posted sampling round; `env` is what the platform
returns during that round.  An exception escaping the round ends the run. -/
def handlerRun (env : Env) (s : Sys) : Option Sys :=
  if s.posted = 0 then none
  else
    match samplingRound env s.world with
    | .ok w => some { s with world := w, posted := s.posted - 1 }
    | .error _ => none

/-- One step of the controller; `none` when the action is not possible in `s`. -/
def step (s : Sys) : Action → Option Sys
  | .startMonitoring => some (startMonitoring s)
  | .stopMonitoring => some (stopMonitoring s)
  | .forceUpdate => some (forceUpdate s)
  | .taskBegin i => taskBegin i s
  | .taskPost i => taskPost i s
  | .handlerRun env => handlerRun env s

/-- Run a sequence of actions. -/
def run (s : Sys) : List Action → Option Sys
  | [] => some s
  | a :: as => (step s a).bind (fun s1 => run s1 as)

/-- The number of timers that are not cancelled. -/
def activeTimers (s : Sys) : Nat := (s.timers.filter (fun t => !t.cancelled)).length

/-- The sampling rounds still to come without any new task run: the posted rounds and
the task runs in progress. -/
def pendingRounds (s : Sys) : Nat :=
  s.posted + (s.timers.filter (fun t => t.executing)).length

/-- An action other than `startMonitoring` and `forceUpdate`. -/
def Action.quiet : Action → Bool
  | .startMonitoring => false
  | .forceUpdate => false
  | _ => true

/-- A round in which every read succeeds: a discharging battery at 50 of 100, wifi. -/
def sampleEnv : Env :=
  { cpu := .ok (FP.fin 35),
    memory := .ok { totalMem := 8, availMem := 4 },
    battery := .ok (some { level := some 50, scale := some 100, status := some 3 }),
    storage := .ok { blockSizeLong := 4096, blockCountLong := 100, availableBlocksLong := 25 },
    network := .ok (wifiSample 1000 500 1000) }

/-- Every timer that is not cancelled is the one held in `monitorTimer`. -/
def HeldOnly (s : Sys) : Prop :=
  ∀ (i : Nat) (t : Timer), s.timers[i]? = some t → t.cancelled = false →
    s.world.module.monitorTimer = some i

/-- Every timer is cancelled. -/
def AllCancelled (ts : List Timer) : Prop :=
  ∀ (i : Nat) (t : Timer), ts[i]? = some t → t.cancelled = true

/-! ## The display (`MainScreen.js`) -/

/-- A JavaScript value held in the screen state: a number, or the string returned by
`toFixed(digits)`, carried by the number that string denotes. -/
inductive JSVal where
  | num (x : FP)
  | fixed (x : FP) (digits : Nat)
  deriving DecidableEq, Repr

/-- JavaScript `ToNumber` on such a value. -/
def JSVal.toNumber : JSVal → FP
  | .num x => x
  | .fixed x _ => x

/-- JavaScript `a > b` on numbers: false as soon as one side is NaN. -/
def FP.gt : FP → FP → Bool
  | .fin a, .fin b => decide (b < a)
  | .fin _, .inf s => s
  | .inf s, .fin _ => !s
  | .inf s, .inf t => !s && t
  | .nan, _ => false
  | _, .nan => false

/-- The number denoted by `x.toFixed(digits)` for a finite `x`: below `10 ^ 21` in
magnitude the nearest multiple of `10 ^ -digits`, a tie going away from zero; from
`10 ^ 21` on, `x` itself. -/
def toFixedQ (digits : Nat) (q : ℚ) : ℚ :=
  if 10 ^ 21 ≤ |q| then q
  else if q < 0 then -((⌊(-q) * 10 ^ digits + 1 / 2⌋ : Int) : ℚ) / 10 ^ digits
  else ((⌊q * 10 ^ digits + 1 / 2⌋ : Int) : ℚ) / 10 ^ digits

/-- JavaScript `x.toFixed(digits)`; NaN and the infinities give their own names. -/
def FP.toFixed (digits : Nat) : FP → JSVal
  | .fin q => .fixed (.fin (toFixedQ digits q)) digits
  | x => .fixed x digits

/-- The constant `1024 * 1024 * 1024`. -/
def GiB : ℚ := 1024 * 1024 * 1024

/-- Rounding of a non-negative rational to the nearest integer, a tie going to the
even one. -/
def roundHalfEven (x : ℚ) : Int :=
  let f := ⌊x + 1 / 2⌋
  if (f : ℚ) = x + 1 / 2 ∧ f % 2 = 1 then f - 1 else f

/-- Rounding of an exact result to the nearest binary64 number (ties to even): 53
significant bits, subnormals below `2 ^ -1022`, an infinity from `2 ^ 1024` on. -/
def round64Q (q : ℚ) : FP :=
  if q = 0 then .fin 0
  else
    let e := max (Int.log 2 |q|) (-1022)
    let ulp : ℚ := 2 ^ (e - 52)
    let r : ℚ := (roundHalfEven (|q| / ulp) : ℚ) * ulp
    if 2 ^ 1024 ≤ r then .inf (decide (q < 0))
    else .fin (if q < 0 then -r else r)

/-- Rounding of the exact result of an operation to binary64. -/
def FP.round64 : FP → FP
  | .fin q => round64Q q
  | x => x

/-- JavaScript `a / b` on numbers, rounded to binary64. -/
def FP.div64 (a b : FP) : FP := FP.round64 (FP.div a b)

/-- JavaScript `a * b` on numbers, rounded to binary64. -/
def FP.mul64 (a b : FP) : FP := FP.round64 (FP.mul a b)

/-- The state variables of `ResourceMonitorApp` that the fallback source and the
storage listener write; `lastUpdate` is a clock value. -/
structure Screen where
  memoryUsage : FP
  memoryUsedGB : JSVal
  memoryTotalGB : JSVal
  batteryLevel : FP
  isCharging : Bool
  storageUsed : JSVal
  storageTotal : JSVal
  storageFree : JSVal
  networkType : String
  lastUpdate : Int
  deriving DecidableEq, Repr

/-- The `useState` initial values; `now` is the `new Date()` of the first render. -/
def Screen.initial (now : Int) : Screen :=
  { memoryUsage := .fin 0, memoryUsedGB := .num (.fin 0), memoryTotalGB := .num (.fin 0),
    batteryLevel := .fin 100, isCharging := false,
    storageUsed := .num (.fin 0), storageTotal := .num (.fin 0), storageFree := .num (.fin 0),
    networkType := "Unknown", lastUpdate := now }

/-- What one run of `getFallbackData` gets from `DeviceInfo` and `NetInfo`: each promise
either resolves (`.ok`) or rejects (`.error`); `now` is the value of `new Date()`. -/
structure FallbackEnv where
  usedMemory : Except Exn FP
  totalMemory : Except Exn FP
  batteryLevel : Except Exn FP
  batteryCharging : Except Exn Bool
  freeDisk : Except Exn FP
  totalDisk : Except Exn FP
  netType : Except Exn String
  now : Int

/-- An `await` inside the single `try` block of `getFallbackData`: when the promise
rejects, control goes to the `catch`, which only logs, and the run ends with the screen
as it is at that point; otherwise the rest of the block runs with the value. -/
def await {α : Type} (promise : Except Exn α) (scr : Screen) (rest : α → Screen) : Screen :=
  match promise with
  | .ok a => rest a
  | .error _ => scr

/-- The three memory setters of `getFallbackData`. -/
def setMemory (usedMemory totalMemory : FP) (scr : Screen) : Screen :=
  { scr with
    memoryUsage := FP.mul (FP.div usedMemory totalMemory) (.fin 100)
    memoryUsedGB := FP.toFixed 1 (FP.div usedMemory (.fin GiB))
    memoryTotalGB := FP.toFixed 1 (FP.div totalMemory (.fin GiB)) }

/-- The two battery setters of `getFallbackData`. -/
def setBattery (battery : FP) (charging : Bool) (scr : Screen) : Screen :=
  { scr with
    batteryLevel := FP.mul battery (.fin 100)
    isCharging := charging }

/-- The three storage setters of `getFallbackData`. -/
def setStorage (freeDisk totalDisk : FP) (scr : Screen) : Screen :=
  { scr with
    storageUsed := FP.toFixed 0 (FP.div (FP.sub totalDisk freeDisk) (.fin GiB))
    storageTotal := FP.toFixed 0 (FP.div totalDisk (.fin GiB))
    storageFree := FP.toFixed 0 (FP.div freeDisk (.fin GiB)) }

/-- The last two setters of `getFallbackData`: `setNetworkType`, `setLastUpdate`. -/
def setNetwork (type : String) (now : Int) (scr : Screen) : Screen :=
  { scr with networkType := type, lastUpdate := now }

/-- The function `getFallbackData`: one `try` block with the reads and setters of
memory, battery, storage and network type in this order, and a `catch` that logs. -/
def getFallbackData (env : FallbackEnv) (scr : Screen) : Screen :=
  await env.usedMemory scr fun usedMemory =>
  await env.totalMemory scr fun totalMemory =>
  let scr1 := setMemory usedMemory totalMemory scr
  await env.batteryLevel scr1 fun battery =>
  await env.batteryCharging scr1 fun charging =>
  let scr2 := setBattery battery charging scr1
  await env.freeDisk scr2 fun freeDisk =>
  await env.totalDisk scr2 fun totalDisk =>
  let scr3 := setStorage freeDisk totalDisk scr2
  await env.netType scr3 fun type =>
  setNetwork type env.now scr3

/-- The listener registered for `onStorageUpdate`; `now` is the value of `new Date()`. -/
def storageListener (ev : Event) (now : Int) (scr : Screen) : Screen :=
  match ev with
  | .onStorageUpdate total free used =>
    { scr with
      storageUsed := FP.toFixed 0 (FP.div64 used (.fin GiB))
      storageTotal := FP.toFixed 0 (FP.div64 total (.fin GiB))
      storageFree := FP.toFixed 0 (FP.div64 free (.fin GiB))
      lastUpdate := now }
  | _ => scr

/-- The render-time constant `storagePercent`. -/
def storagePercent (scr : Screen) : JSVal :=
  if FP.gt scr.storageTotal.toNumber (.fin 0) then
    FP.toFixed 0
      (FP.mul64 (FP.div64 scr.storageUsed.toNumber scr.storageTotal.toNumber) (.fin 100))
  else
    .num (.fin 0)

/-- A fallback run in which every read succeeds. -/
def sampleFallback : FallbackEnv :=
  { usedMemory := .ok (.fin (4 * GiB)), totalMemory := .ok (.fin (8 * GiB)),
    batteryLevel := .ok (.fin (1 / 2)), batteryCharging := .ok true,
    freeDisk := .ok (.fin (32 * GiB)), totalDisk := .ok (.fin (128 * GiB)),
    netType := .ok "wifi", now := 7 }

/-- Whether the promise rejects. -/
def rejected {α : Type} (promise : Except Exn α) : Bool :=
  match promise with
  | .ok _ => false
  | .error _ => true

/-- The memory category of a fallback run fails: one of its two reads rejects. -/
def memoryRejects (env : FallbackEnv) : Bool :=
  rejected env.usedMemory || rejected env.totalMemory

/-- The battery category of a fallback run fails. -/
def batteryRejects (env : FallbackEnv) : Bool :=
  rejected env.batteryLevel || rejected env.batteryCharging

/-- The storage category of a fallback run fails. -/
def storageRejects (env : FallbackEnv) : Bool :=
  rejected env.freeDisk || rejected env.totalDisk

/-! ## Basic facts -/

theorem wrapLong_eq {i : Int} (h : isLong i) : wrapLong i = i := by
  unfold wrapLong
  unfold isLong at h
  omega

theorem Long.sub_eq {a b : Int} (h : isLong (a - b)) : Long.sub a b = a - b :=
  wrapLong_eq h

theorem ok_bind {α β : Type} (a : α) (f : α → Except Exn β) :
    ((Except.ok a : Except Exn α) >>= f) = f a := rfl

theorem sendNetworkUpdate_ok (s : NetworkSample) (w : World) :
    sendNetworkUpdate (.ok s) w
      = .ok { module := (networkTick w.module s).1,
              log := w.log ++ [(networkTick w.module s).2] } := rfl

theorem networkTick_not_connected (m : Module) (s : NetworkSample)
    (h : s.connected = false) :
    networkTick m s = (m, Event.onNetworkUpdate "none" (FP.fin 0) (FP.fin 0)) := by
  unfold networkTick
  unfold NetworkSample.connected at h
  cases hs : s.activeNetwork with
  | none => rfl
  | some info =>
    rw [hs] at h
    simp only at h
    simp [h]

theorem networkTick_connected (m : Module) (s : NetworkSample)
    (h : s.connected = true) :
    networkTick m s
      = (m.store s,
          Event.onNetworkUpdate s.connectionType
            (connectedSpeeds m s.totalRxBytes s.totalTxBytes s.currentTimeMillis).1
            (connectedSpeeds m s.totalRxBytes s.totalTxBytes s.currentTimeMillis).2) := by
  unfold networkTick
  unfold NetworkSample.connected at h
  unfold NetworkSample.connectionType
  cases hs : s.activeNetwork with
  | none => rw [hs] at h; simp at h
  | some info =>
    rw [hs] at h
    simp only at h
    simp [h, Module.store]

theorem rateOf_pos (current last timeDiff : Int) (h : 0 < timeDiff) :
    rateOf current last timeDiff
      = FP.fin ((Long.sub current last : ℚ) * 8 / (timeDiff : ℚ) / 1000) := by
  have h1 : (timeDiff : ℚ) ≠ 0 := by
    have : (0 : ℚ) < (timeDiff : ℚ) := by exact_mod_cast h
    exact ne_of_gt this
  simp [rateOf, FP.div, FP.mul, FP.ofInt, h1]

theorem connectedSpeeds_rate (m : Module) (rx tx t : Int)
    (hprev : 0 < m.lastUpdateTime) (ht : m.lastUpdateTime < t) (htL : isLong t) :
    connectedSpeeds m rx tx t
      = (FP.fin ((Long.sub rx m.lastTotalRxBytes : ℚ) * 8
            / ((t - m.lastUpdateTime : Int) : ℚ) / 1000),
         FP.fin ((Long.sub tx m.lastTotalTxBytes : ℚ) * 8
            / ((t - m.lastUpdateTime : Int) : ℚ) / 1000)) := by
  have hfit : isLong (t - m.lastUpdateTime) := by
    unfold isLong at htL ⊢
    omega
  have hd : Long.sub t m.lastUpdateTime = t - m.lastUpdateTime := Long.sub_eq hfit
  have hpos : 0 < t - m.lastUpdateTime := by omega
  unfold connectedSpeeds
  simp only [gt_iff_lt, hprev, if_true, hd, hpos]
  rw [rateOf_pos _ _ _ hpos, rateOf_pos _ _ _ hpos]

theorem connectedSpeeds_no_previous (m : Module) (rx tx t : Int)
    (hprev : m.lastUpdateTime ≤ 0) :
    connectedSpeeds m rx tx t = (FP.fin 0, FP.fin 0) := by
  unfold connectedSpeeds
  have : ¬ (m.lastUpdateTime > 0) := by omega
  simp [this]

theorem connectedSpeeds_nonpos_delta (m : Module) (rx tx t : Int)
    (hd : Long.sub t m.lastUpdateTime ≤ 0) :
    connectedSpeeds m rx tx t = (FP.fin 0, FP.fin 0) := by
  unfold connectedSpeeds
  have : ¬ (Long.sub t m.lastUpdateTime > 0) := by omega
  by_cases h : m.lastUpdateTime > 0 <;> simp [h, this]

theorem sendNetworkUpdate_rate_aux (w : World) (s : NetworkSample)
    (hconn : s.connected = true)
    (hprev : w.module.lastUpdateTime > 0)
    (ht : s.currentTimeMillis > w.module.lastUpdateTime)
    (htL : isLong s.currentTimeMillis) :
    sendNetworkUpdate (.ok s) w
      = .ok { module := w.module.store s,
              log := w.log ++ [Event.onNetworkUpdate s.connectionType
                (FP.fin ((Long.sub s.totalRxBytes w.module.lastTotalRxBytes : ℚ) * 8
                  / ((s.currentTimeMillis - w.module.lastUpdateTime : Int) : ℚ) / 1000))
                (FP.fin ((Long.sub s.totalTxBytes w.module.lastTotalTxBytes : ℚ) * 8
                  / ((s.currentTimeMillis - w.module.lastUpdateTime : Int) : ℚ) / 1000))] } := by
  rw [sendNetworkUpdate_ok, networkTick_connected _ _ hconn,
    connectedSpeeds_rate _ _ _ _ hprev ht htL]

theorem connectionType_not_connected (s : NetworkSample) (hc : s.connected = false) :
    s.connectionType = "none" := by
  unfold NetworkSample.connectionType
  unfold NetworkSample.connected at hc
  cases hs : s.activeNetwork with
  | none => rfl
  | some info => rw [hs] at hc; simp only at hc; simp [hc]

theorem sendNetworkUpdate_first_tick_aux (timer : Option Nat) (log : List Event)
    (s : NetworkSample) :
    sendNetworkUpdate (.ok s) ⟨{ Module.fresh with monitorTimer := timer }, log⟩
      = .ok { module :=
                if s.connected then { Module.fresh with monitorTimer := timer }.store s
                else { Module.fresh with monitorTimer := timer },
              log := log ++ [Event.onNetworkUpdate s.connectionType (FP.fin 0) (FP.fin 0)] } := by
  rw [sendNetworkUpdate_ok]
  cases hc : s.connected with
  | false =>
    rw [networkTick_not_connected _ _ hc, connectionType_not_connected _ hc]
    simp
  | true =>
    rw [networkTick_connected _ _ hc, connectedSpeeds_no_previous _ _ _ _ (by simp [Module.fresh])]
    simp

theorem batteryEvent_shape (b : Option BatteryIntent) :
    ∃ timeRemaining timeToFull : Int,
      batteryEvent b
        = Event.onBatteryUpdate
            (FP.mul (FP.div (FP.ofInt (intExtra b BatteryIntent.level))
              (FP.ofInt (intExtra b BatteryIntent.scale))) (FP.fin 100))
            (decide (intExtra b BatteryIntent.status = BATTERY_STATUS_CHARGING)
              || decide (intExtra b BatteryIntent.status = BATTERY_STATUS_FULL))
            timeRemaining timeToFull :=
  ⟨_, _, rfl⟩

theorem batteryPct_degenerate (level scale : Int) (h : scale = 0 ∨ scale = -1) :
    FP.mul (FP.div (FP.ofInt level) (FP.ofInt scale)) (FP.fin 100)
      = if scale = 0 then (if level = 0 then FP.nan else FP.inf (decide (level < 0)))
        else FP.fin (-(level : ℚ) * 100) := by
  rcases h with h | h
  · subst h
    by_cases hl : level = 0
    · subst hl
      simp [FP.ofInt, FP.div, FP.mul]
    · have hq : (level : ℚ) ≠ 0 := by exact_mod_cast hl
      have h100 : ¬ ((100 : ℚ) < 0) := by norm_num
      simp [FP.ofInt, FP.div, FP.mul, hl, hq, h100]
  · subst h
    simp [FP.ofInt, FP.div, FP.mul]
    ring

theorem samplingRound_eq (env : Env) (w : World) :
    samplingRound env w
      = .ok { module := w.module.afterNetwork env.network,
              log := w.log
                ++ emitted env.cpu Event.onCPUUpdate
                ++ emitted env.memory memoryEvent
                ++ emitted env.battery batteryEvent
                ++ emitted env.storage storageEvent
                ++ emitted env.network (fun s => (networkTick w.module s).2) } := by
  obtain ⟨cpu, memory, battery, storage, network⟩ := env
  cases cpu <;> cases memory <;> cases battery <;> cases storage <;> cases network <;>
    simp [samplingRound, sendCPUUpdate, sendMemoryUpdate, sendBatteryUpdate,
      sendStorageUpdate, sendNetworkUpdate, catching, sendEvent, emitted,
      Module.afterNetwork, bind, Except.bind, pure, Except.pure]

/-! ## Timers -/

theorem length_modifyAt (f : Timer → Timer) :
    ∀ (ts : List Timer) (i : Nat), (modifyAt f i ts).length = ts.length
  | [], i => by cases i <;> rfl
  | _ :: _, 0 => rfl
  | _ :: ts, i + 1 => by simp [modifyAt, length_modifyAt f ts i]

theorem getElem?_modifyAt (f : Timer → Timer) :
    ∀ (ts : List Timer) (i j : Nat),
      (modifyAt f i ts)[j]? = if j = i then (ts[j]?).map f else ts[j]?
  | [], i, j => by simp [modifyAt]
  | t :: ts, 0, 0 => by simp [modifyAt]
  | t :: ts, 0, j + 1 => by simp [modifyAt]
  | t :: ts, i + 1, 0 => by simp [modifyAt]
  | t :: ts, i + 1, j + 1 => by simp [modifyAt, getElem?_modifyAt f ts i j]

theorem getElem?_modifyAt_cancelled (f : Timer → Timer)
    (hf : ∀ t, (f t).cancelled = t.cancelled) (ts : List Timer) (i j : Nat) (t : Timer)
    (h : (modifyAt f i ts)[j]? = some t) :
    ∃ t0, ts[j]? = some t0 ∧ t0.cancelled = t.cancelled := by
  rw [getElem?_modifyAt] at h
  by_cases hj : j = i
  · rw [if_pos hj] at h
    cases h0 : ts[j]? with
    | none => rw [h0] at h; simp at h
    | some t0 =>
      rw [h0] at h
      simp only [Option.map_some', Option.some.injEq] at h
      exact ⟨t0, rfl, by rw [← h, hf]⟩
  · rw [if_neg hj] at h
    exact ⟨t, h, rfl⟩

theorem cancelHeld_length (s : Sys) : (cancelHeld s).length = s.timers.length := by
  unfold cancelHeld
  cases s.world.module.monitorTimer with
  | none => rfl
  | some i => exact length_modifyAt _ _ _

theorem cancelHeld_allCancelled (s : Sys) (h : HeldOnly s) : AllCancelled (cancelHeld s) := by
  intro j t hj
  unfold cancelHeld at hj
  cases hm : s.world.module.monitorTimer with
  | none =>
    rw [hm] at hj
    simp only at hj
    cases hc : t.cancelled with
    | true => rfl
    | false =>
      have := h j t hj hc
      rw [hm] at this
      cases this
  | some i =>
    rw [hm] at hj
    simp only at hj
    rw [getElem?_modifyAt] at hj
    by_cases hji : j = i
    · rw [if_pos hji] at hj
      cases h0 : s.timers[j]? with
      | none => rw [h0] at hj; simp at hj
      | some t0 =>
        rw [h0] at hj
        simp only [Option.map_some', Option.some.injEq] at hj
        rw [← hj]
    · rw [if_neg hji] at hj
      cases hc : t.cancelled with
      | true => rfl
      | false =>
        have := h j t hj hc
        rw [hm] at this
        simp only [Option.some.injEq] at this
        exact absurd this.symm hji

theorem filter_allCancelled (ts : List Timer) (h : AllCancelled ts) :
    ts.filter (fun t => !t.cancelled) = [] := by
  rw [List.filter_eq_nil_iff]
  intro t ht
  obtain ⟨i, hi⟩ := List.getElem?_of_mem ht
  simp [h i t hi]

theorem filter_active_le_one :
    ∀ (ts : List Timer) (k : Option Nat),
      (∀ i t, ts[i]? = some t → t.cancelled = false → k = some i) →
      (ts.filter (fun t => !t.cancelled)).length ≤ 1
  | [], _, _ => by simp
  | t :: ts, k, h => by
    cases hc : t.cancelled with
    | true =>
      have ih := filter_active_le_one ts (k.map (fun n => n - 1)) (by
        intro i t1 hi h1
        have := h (i + 1) t1 (by simpa using hi) h1
        rw [this]
        rfl)
      simpa [List.filter, hc] using ih
    | false =>
      have hk : k = some 0 := h 0 t (by simp) hc
      have htail : AllCancelled ts := by
        intro i t1 hi
        cases h1 : t1.cancelled with
        | true => rfl
        | false =>
          have := h (i + 1) t1 (by simpa using hi) h1
          rw [hk] at this
          simp at this
      simp [List.filter, hc, filter_allCancelled ts htail]

theorem afterNetwork_monitorTimer (m : Module) (network : Except Exn NetworkSample) :
    (m.afterNetwork network).monitorTimer = m.monitorTimer := by
  cases network with
  | error e => rfl
  | ok s =>
    show (networkTick m s).1.monitorTimer = m.monitorTimer
    cases hc : s.connected with
    | false => rw [networkTick_not_connected _ _ hc]
    | true => rw [networkTick_connected _ _ hc]; rfl

theorem heldOnly_init : HeldOnly Sys.init := by
  intro i t h
  simp [Sys.init] at h

theorem heldOnly_startMonitoring (s : Sys) (h : HeldOnly s) : HeldOnly (startMonitoring s) := by
  intro i t hi hc
  have hall := cancelHeld_allCancelled s h
  show some (cancelHeld s).length = some i
  have hi1 : (cancelHeld s ++ [armedTimer])[i]? = some t := hi
  by_cases hlt : i < (cancelHeld s).length
  · rw [List.getElem?_append_left hlt] at hi1
    have := hall i t hi1
    rw [hc] at this
    cases this
  · have hge : (cancelHeld s).length ≤ i := by omega
    rw [List.getElem?_append_right hge] at hi1
    have hlen : i - (cancelHeld s).length < 1 := by
      by_contra hcon
      have : [armedTimer][i - (cancelHeld s).length]? = none := by
        apply List.getElem?_eq_none
        simp only [List.length_singleton]
        omega
      rw [this] at hi1
      cases hi1
    congr 1
    omega

theorem heldOnly_stopMonitoring (s : Sys) (h : HeldOnly s) : HeldOnly (stopMonitoring s) := by
  intro i t hi hc
  have := cancelHeld_allCancelled s h i t hi
  rw [hc] at this
  cases this

theorem heldOnly_step (s s1 : Sys) (a : Action) (h : HeldOnly s) (hs : step s a = some s1) :
    HeldOnly s1 := by
  cases a with
  | startMonitoring =>
    simp only [step, Option.some.injEq] at hs
    subst hs
    exact heldOnly_startMonitoring s h
  | stopMonitoring =>
    simp only [step, Option.some.injEq] at hs
    subst hs
    exact heldOnly_stopMonitoring s h
  | forceUpdate =>
    simp only [step, Option.some.injEq] at hs
    subst hs
    exact h
  | taskBegin i =>
    simp only [step, taskBegin] at hs
    cases h0 : s.timers[i]? with
    | none => rw [h0] at hs; cases hs
    | some t0 =>
      rw [h0] at hs
      simp only at hs
      split at hs
      · simp only [Option.some.injEq] at hs
        subst hs
        intro j t hj hc
        obtain ⟨t1, ht1, hc1⟩ := getElem?_modifyAt_cancelled
          (fun t => { t with executing := true }) (fun _ => rfl) _ _ _ _ hj
        exact h j t1 ht1 (by rw [hc1, hc])
      · cases hs
  | taskPost i =>
    simp only [step, taskPost] at hs
    cases h0 : s.timers[i]? with
    | none => rw [h0] at hs; cases hs
    | some t0 =>
      rw [h0] at hs
      simp only at hs
      split at hs
      · simp only [Option.some.injEq] at hs
        subst hs
        intro j t hj hc
        obtain ⟨t1, ht1, hc1⟩ := getElem?_modifyAt_cancelled
          (fun t => { t with executing := false }) (fun _ => rfl) _ _ _ _ hj
        exact h j t1 ht1 (by rw [hc1, hc])
      · cases hs
  | handlerRun env =>
    simp only [step, handlerRun] at hs
    split at hs
    · cases hs
    · rw [samplingRound_eq] at hs
      simp only [Option.some.injEq] at hs
      subst hs
      intro j t hj hc
      have := h j t hj hc
      show (s.world.module.afterNetwork env.network).monitorTimer = some j
      rw [afterNetwork_monitorTimer]
      exact this

theorem heldOnly_run :
    ∀ (as : List Action) (s s1 : Sys), HeldOnly s → run s as = some s1 → HeldOnly s1
  | [], s, s1, h, hr => by
    simp only [run, Option.some.injEq] at hr
    subst hr
    exact h
  | a :: as, s, s1, h, hr => by
    simp only [run] at hr
    cases hs : step s a with
    | none => rw [hs] at hr; cases hr
    | some s2 =>
      rw [hs] at hr
      exact heldOnly_run as s2 s1 (heldOnly_step s s2 a h hs) hr

theorem activeTimers_startMonitoring (s : Sys) (h : HeldOnly s) :
    activeTimers (startMonitoring s) = 1 := by
  show ((cancelHeld s ++ [armedTimer]).filter (fun t => !t.cancelled)).length = 1
  rw [List.filter_append, filter_allCancelled _ (cancelHeld_allCancelled s h)]
  rfl

theorem startMonitoring_twice_timers (s : Sys) :
    (startMonitoring (startMonitoring s)).timers
      = cancelHeld s ++ [{ armedTimer with cancelled := true }] ++ [armedTimer] := by
  have hmod : ∀ ts : List Timer,
      modifyAt (fun t => { t with cancelled := true }) ts.length (ts ++ [armedTimer])
        = ts ++ [{ armedTimer with cancelled := true }] := by
    intro ts
    induction ts with
    | nil => rfl
    | cons t ts ih => simp [modifyAt, ih]
  show cancelHeld (startMonitoring s) ++ [armedTimer] = _
  congr 1
  exact hmod (cancelHeld s)

theorem allCancelled_modifyAt (f : Timer → Timer) (hf : ∀ t, t.cancelled = true →
    (f t).cancelled = true) (ts : List Timer) (i : Nat) (h : AllCancelled ts) :
    AllCancelled (modifyAt f i ts) := by
  intro j t hj
  rw [getElem?_modifyAt] at hj
  by_cases hji : j = i
  · rw [if_pos hji] at hj
    cases h0 : ts[j]? with
    | none => rw [h0] at hj; simp at hj
    | some t0 =>
      rw [h0] at hj
      simp only [Option.map_some', Option.some.injEq] at hj
      rw [← hj]
      exact hf t0 (h j t0 h0)
  · rw [if_neg hji] at hj
    exact h j t hj

theorem executing_modifyAt_same (f : Timer → Timer) (hf : ∀ t, (f t).executing = t.executing) :
    ∀ (ts : List Timer) (i : Nat),
      ((modifyAt f i ts).filter (fun t => t.executing)).length
        = (ts.filter (fun t => t.executing)).length
  | [], i => by cases i <;> rfl
  | t :: ts, 0 => by
    have h := hf t
    cases he : t.executing <;> rw [he] at h <;> simp [modifyAt, List.filter, he, h]
  | t :: ts, i + 1 => by
    have ih := executing_modifyAt_same f hf ts i
    cases he : t.executing <;> simp [modifyAt, List.filter, he, ih]

theorem executing_modifyAt_clear :
    ∀ (ts : List Timer) (i : Nat) (t0 : Timer), ts[i]? = some t0 → t0.executing = true →
      ((modifyAt (fun t => { t with executing := false }) i ts).filter
          (fun t => t.executing)).length + 1
        = (ts.filter (fun t => t.executing)).length
  | [], i, t0, h, _ => by simp at h
  | t :: ts, 0, t0, h, he => by
    simp only [List.getElem?_cons_zero, Option.some.injEq] at h
    subst h
    simp [modifyAt, List.filter, he]
  | t :: ts, i + 1, t0, h, he => by
    simp only [List.getElem?_cons_succ] at h
    have ih := executing_modifyAt_clear ts i t0 h he
    cases het : t.executing <;> simp [modifyAt, List.filter, het] <;> omega

theorem emitted_length_le {α : Type} (reading : Except Exn α) (build : α → Event) :
    (emitted reading build).length ≤ 1 := by
  cases reading <;> simp [emitted]

theorem quiet_step (s s1 : Sys) (a : Action) (hall : AllCancelled s.timers)
    (hq : a.quiet = true) (hs : step s a = some s1) :
    AllCancelled s1.timers
    ∧ ∃ evs, s1.world.log = s.world.log ++ evs
        ∧ evs.length + 5 * pendingRounds s1 ≤ 5 * pendingRounds s := by
  cases a with
  | startMonitoring => simp [Action.quiet] at hq
  | forceUpdate => simp [Action.quiet] at hq
  | stopMonitoring =>
    simp only [step, Option.some.injEq] at hs
    subst hs
    have hts : (stopMonitoring s).timers = cancelHeld s := rfl
    refine ⟨?_, [], by simp [stopMonitoring], ?_⟩
    · rw [hts]
      unfold cancelHeld
      cases s.world.module.monitorTimer with
      | none => exact hall
      | some i =>
        exact allCancelled_modifyAt (fun t => { t with cancelled := true })
          (fun _ _ => rfl) _ _ hall
    · have : pendingRounds (stopMonitoring s) = pendingRounds s := by
        unfold pendingRounds
        rw [hts]
        show s.posted + _ = _
        unfold cancelHeld
        cases s.world.module.monitorTimer with
        | none => rfl
        | some i =>
          simp only
          rw [executing_modifyAt_same (fun t => { t with cancelled := true }) (fun _ => rfl)]
      rw [this]
      simp
  | taskBegin i =>
    simp only [step, taskBegin] at hs
    cases h0 : s.timers[i]? with
    | none => rw [h0] at hs; cases hs
    | some t0 =>
      rw [h0] at hs
      simp only at hs
      have hc := hall i t0 h0
      simp [hc] at hs
  | taskPost i =>
    simp only [step, taskPost] at hs
    cases h0 : s.timers[i]? with
    | none => rw [h0] at hs; cases hs
    | some t0 =>
      rw [h0] at hs
      simp only at hs
      split at hs
      · rename_i he
        simp only [Option.some.injEq] at hs
        subst hs
        refine ⟨allCancelled_modifyAt (fun t => { t with executing := false })
          (fun _ h => h) _ _ hall, [], by simp, ?_⟩
        have := executing_modifyAt_clear s.timers i t0 h0 he
        simp only [pendingRounds, List.length_nil]
        omega
      · cases hs
  | handlerRun env =>
    simp only [step, handlerRun] at hs
    split at hs
    · cases hs
    · rename_i hp
      rw [samplingRound_eq] at hs
      simp only [Option.some.injEq] at hs
      subst hs
      refine ⟨hall, emitted env.cpu Event.onCPUUpdate ++ emitted env.memory memoryEvent
        ++ emitted env.battery batteryEvent ++ emitted env.storage storageEvent
        ++ emitted env.network (fun n => (networkTick s.world.module n).2), ?_, ?_⟩
      · simp [List.append_assoc]
      · have h1 := emitted_length_le env.cpu Event.onCPUUpdate
        have h2 := emitted_length_le env.memory memoryEvent
        have h3 := emitted_length_le env.battery batteryEvent
        have h4 := emitted_length_le env.storage storageEvent
        have h5 := emitted_length_le env.network (fun n => (networkTick s.world.module n).2)
        simp only [pendingRounds, List.length_append]
        omega

theorem quiet_run :
    ∀ (as : List Action) (s s1 : Sys), AllCancelled s.timers →
      (∀ a ∈ as, a.quiet = true) → run s as = some s1 →
      AllCancelled s1.timers
      ∧ ∃ evs, s1.world.log = s.world.log ++ evs
          ∧ evs.length + 5 * pendingRounds s1 ≤ 5 * pendingRounds s
  | [], s, s1, hall, _, hr => by
    simp only [run, Option.some.injEq] at hr
    subst hr
    exact ⟨hall, [], by simp, by simp⟩
  | a :: as, s, s1, hall, hq, hr => by
    simp only [run] at hr
    cases hs : step s a with
    | none => rw [hs] at hr; cases hr
    | some s2 =>
      rw [hs] at hr
      obtain ⟨hall2, evs2, hlog2, hlen2⟩ :=
        quiet_step s s2 a hall (hq a (List.mem_cons_self a as)) hs
      obtain ⟨hall1, evs1, hlog1, hlen1⟩ :=
        quiet_run as s2 s1 hall2 (fun b hb => hq b (List.mem_cons_of_mem a hb)) hr
      refine ⟨hall1, evs2 ++ evs1, ?_, ?_⟩
      · rw [hlog1, hlog2, List.append_assoc]
      · simp only [List.length_append]
        omega

/-! ## Rate calculation -/

/-- C1: on a connected tick with a stored previous reading (`lastUpdateTime > 0`), a later
timestamp and byte counters not below the stored ones, the published `downloadSpeed` is
`(rx - rxPrev) * 8 / (t - tPrev) / 1000` and the published `uploadSpeed` is
`(tx - txPrev) * 8 / (t - tPrev) / 1000`; the tick's reading becomes the stored one.
The byte differences are the `Long` subtractions of the source, which are the
mathematical differences whenever those fit in 64 bits. -/
theorem sendNetworkUpdate_rate (w : World) (s : NetworkSample)
    (hconn : s.connected = true)
    (hprev : w.module.lastUpdateTime > 0)
    (ht : s.currentTimeMillis > w.module.lastUpdateTime)
    (htL : isLong s.currentTimeMillis)
    (_hrx : s.totalRxBytes ≥ w.module.lastTotalRxBytes)
    (_htx : s.totalTxBytes ≥ w.module.lastTotalTxBytes) :
    sendNetworkUpdate (.ok s) w
      = .ok { module := w.module.store s,
              log := w.log ++ [Event.onNetworkUpdate s.connectionType
                (FP.fin ((Long.sub s.totalRxBytes w.module.lastTotalRxBytes : ℚ) * 8
                  / ((s.currentTimeMillis - w.module.lastUpdateTime : Int) : ℚ) / 1000))
                (FP.fin ((Long.sub s.totalTxBytes w.module.lastTotalTxBytes : ℚ) * 8
                  / ((s.currentTimeMillis - w.module.lastUpdateTime : Int) : ℚ) / 1000))] }
    ∧ (isLong (s.totalRxBytes - w.module.lastTotalRxBytes) →
        Long.sub s.totalRxBytes w.module.lastTotalRxBytes
          = s.totalRxBytes - w.module.lastTotalRxBytes)
    ∧ (isLong (s.totalTxBytes - w.module.lastTotalTxBytes) →
        Long.sub s.totalTxBytes w.module.lastTotalTxBytes
          = s.totalTxBytes - w.module.lastTotalTxBytes) :=
  ⟨sendNetworkUpdate_rate_aux w s hconn hprev ht htL, Long.sub_eq, Long.sub_eq⟩

/-- Witness of C1: stored reading `(1000, 500, 1000)`, wifi tick `(3000, 700, 2000)`:
the published speeds are `(3000 - 1000) * 8 / 1000 / 1000` and
`(700 - 500) * 8 / 1000 / 1000`. -/
theorem sendNetworkUpdate_rate_witness :
    sendNetworkUpdate (.ok (wifiSample 3000 700 2000))
        ⟨⟨some 0, 1000, 500, 1000⟩, []⟩
      = .ok ⟨⟨some 0, 3000, 700, 2000⟩,
          [Event.onNetworkUpdate "wifi" (FP.fin (16 / 1000)) (FP.fin (16 / 10000))]⟩ := by
  have h := (sendNetworkUpdate_rate ⟨⟨some 0, 1000, 500, 1000⟩, []⟩
    (wifiSample 3000 700 2000)
    (by decide) (by decide) (by decide) (by decide) (by decide) (by decide)).1
  rw [h]
  simp [Module.store, wifiSample, NetworkSample.connectionType, networkTypeOf, TYPE_WIFI,
    Long.sub, wrapLong]
  norm_num

/-- C2: the first network tick of a freshly constructed module (whatever timer it holds)
publishes `downloadSpeed = 0` and `uploadSpeed = 0`, for every reading: every connection
state and type, every counter value and every timestamp. -/
theorem sendNetworkUpdate_first_tick (timer : Option Nat) (log : List Event)
    (s : NetworkSample) :
    sendNetworkUpdate (.ok s) ⟨{ Module.fresh with monitorTimer := timer }, log⟩
      = .ok { module :=
                if s.connected then { Module.fresh with monitorTimer := timer }.store s
                else { Module.fresh with monitorTimer := timer },
              log := log ++ [Event.onNetworkUpdate s.connectionType (FP.fin 0) (FP.fin 0)] } :=
  sendNetworkUpdate_first_tick_aux timer log s

/-- C3, as stated, fails: from a fresh module, a wifi tick `(rx = 2000, t = 1000)` followed
by a wifi tick `(rx = 1000, t = 2000)` (the received-byte counter went back) publishes
`downloadSpeed = -0.008`, which is not 0 and is negative. -/
theorem downloadSpeed_counter_reset_negative :
    (sendNetworkUpdate (.ok (wifiSample 2000 0 1000)) ⟨Module.fresh, []⟩
        >>= sendNetworkUpdate (.ok (wifiSample 1000 0 2000)))
      = .ok ⟨⟨none, 1000, 0, 2000⟩,
          [Event.onNetworkUpdate "wifi" (FP.fin 0) (FP.fin 0),
           Event.onNetworkUpdate "wifi" (FP.fin (-8 / 1000)) (FP.fin 0)]⟩
    ∧ FP.fin (-8 / 1000) ≠ FP.fin 0 ∧ (-8 / 1000 : ℚ) < 0 := by
  refine ⟨?_, ?_, ?_⟩
  · simp [sendNetworkUpdate_ok, networkTick, wifiSample, Module.fresh, connectedSpeeds,
      rateOf, Long.sub, wrapLong, FP.div, FP.mul, FP.ofInt, networkTypeOf, TYPE_WIFI,
      bind, Except.bind]
    norm_num
  · simp
  · norm_num

/-- C3, amended: on a connected tick with a stored previous reading and a later timestamp,
a received-byte counter below the stored one (the `Long` difference not wrapping) gives
`downloadSpeed = (rx - rxPrev) * 8 / (t - tPrev) / 1000`, a negative number: the delta is
not clamped.  Symmetrically for the transmitted-byte counter and `uploadSpeed`. -/
theorem sendNetworkUpdate_counter_reset (w : World) (s : NetworkSample)
    (hconn : s.connected = true)
    (hprev : w.module.lastUpdateTime > 0)
    (ht : s.currentTimeMillis > w.module.lastUpdateTime)
    (htL : isLong s.currentTimeMillis) :
    ∃ down up : ℚ,
      sendNetworkUpdate (.ok s) w
        = .ok { module := w.module.store s,
                log := w.log ++ [Event.onNetworkUpdate s.connectionType
                  (FP.fin down) (FP.fin up)] }
      ∧ (s.totalRxBytes < w.module.lastTotalRxBytes →
          isLong (s.totalRxBytes - w.module.lastTotalRxBytes) →
          down = ((s.totalRxBytes - w.module.lastTotalRxBytes : Int) : ℚ) * 8
              / ((s.currentTimeMillis - w.module.lastUpdateTime : Int) : ℚ) / 1000
            ∧ down < 0)
      ∧ (s.totalTxBytes < w.module.lastTotalTxBytes →
          isLong (s.totalTxBytes - w.module.lastTotalTxBytes) →
          up = ((s.totalTxBytes - w.module.lastTotalTxBytes : Int) : ℚ) * 8
              / ((s.currentTimeMillis - w.module.lastUpdateTime : Int) : ℚ) / 1000
            ∧ up < 0) := by
  have hdt : (0 : ℚ) < ((s.currentTimeMillis - w.module.lastUpdateTime : Int) : ℚ) := by
    have : 0 < s.currentTimeMillis - w.module.lastUpdateTime := by omega
    exact_mod_cast this
  have key : ∀ a b : Int, a < b → isLong (a - b) →
      ((Long.sub a b : Int) : ℚ) * 8
          / ((s.currentTimeMillis - w.module.lastUpdateTime : Int) : ℚ) / 1000
        = ((a - b : Int) : ℚ) * 8
          / ((s.currentTimeMillis - w.module.lastUpdateTime : Int) : ℚ) / 1000
      ∧ ((Long.sub a b : Int) : ℚ) * 8
          / ((s.currentTimeMillis - w.module.lastUpdateTime : Int) : ℚ) / 1000 < 0 := by
    intro a b hab hfit
    rw [Long.sub_eq hfit]
    refine ⟨rfl, ?_⟩
    have hneg : ((a - b : Int) : ℚ) < 0 := by
      have : a - b < 0 := by omega
      exact_mod_cast this
    have h8 : ((a - b : Int) : ℚ) * 8 < 0 := by linarith
    have h1 : ((a - b : Int) : ℚ) * 8
        / ((s.currentTimeMillis - w.module.lastUpdateTime : Int) : ℚ) < 0 :=
      div_neg_of_neg_of_pos h8 hdt
    exact div_neg_of_neg_of_pos h1 (by norm_num)
  refine ⟨_, _, sendNetworkUpdate_rate_aux w s hconn hprev ht htL, ?_, ?_⟩
  · intro h1 h2
    exact key _ _ h1 h2
  · intro h1 h2
    exact key _ _ h1 h2

/-- Witness of the amended C3: stored reading `(2000, 3000, 1000)`, wifi tick
`(1000, 1000, 2000)`: both counters went back, both speeds are negative. -/
theorem sendNetworkUpdate_counter_reset_witness :
    ∃ down up : ℚ,
      sendNetworkUpdate (.ok (wifiSample 1000 1000 2000)) ⟨⟨none, 2000, 3000, 1000⟩, []⟩
        = .ok ⟨⟨none, 1000, 1000, 2000⟩,
            [Event.onNetworkUpdate "wifi" (FP.fin down) (FP.fin up)]⟩
      ∧ down < 0 ∧ up < 0 := by
  obtain ⟨down, up, h, hdown, hup⟩ :=
    sendNetworkUpdate_counter_reset ⟨⟨none, 2000, 3000, 1000⟩, []⟩
      (wifiSample 1000 1000 2000) (by decide) (by decide) (by decide) (by decide)
  exact ⟨down, up, h, (hdown (by decide) (by decide)).2, (hup (by decide) (by decide)).2⟩

/-- C4, as stated, fails: from a fresh module, a wifi tick at `t = 1000` stores the
timestamp 1000; a following wifi tick at `t = 500` (time delta `-500`) publishes zero
speeds but stores the timestamp 500, which is smaller than 1000. -/
theorem lastUpdateTime_moves_backward :
    sendNetworkUpdate (.ok (wifiSample 0 0 1000)) ⟨Module.fresh, []⟩
      = .ok ⟨⟨none, 0, 0, 1000⟩, [Event.onNetworkUpdate "wifi" (FP.fin 0) (FP.fin 0)]⟩
    ∧ Long.sub 500 1000 ≤ 0
    ∧ sendNetworkUpdate (.ok (wifiSample 0 0 500)) ⟨⟨none, 0, 0, 1000⟩, []⟩
      = .ok ⟨⟨none, 0, 0, 500⟩, [Event.onNetworkUpdate "wifi" (FP.fin 0) (FP.fin 0)]⟩
    ∧ (500 : Int) < 1000 := by
  refine ⟨by decide, by decide, by decide, by decide⟩

/-- C4, amended: a tick whose computed time delta `t - lastUpdateTime` is non-positive
publishes `downloadSpeed = 0` and `uploadSpeed = 0`; when the tick is connected it stores
its own counters and timestamp `t` (whatever the stored timestamp was), and when it is
not connected it leaves the stored reading unchanged. -/
theorem sendNetworkUpdate_nonpos_delta (w : World) (s : NetworkSample)
    (hd : Long.sub s.currentTimeMillis w.module.lastUpdateTime ≤ 0) :
    sendNetworkUpdate (.ok s) w
      = .ok { module := if s.connected then w.module.store s else w.module,
              log := w.log ++ [Event.onNetworkUpdate s.connectionType (FP.fin 0) (FP.fin 0)] } := by
  rw [sendNetworkUpdate_ok]
  cases hc : s.connected with
  | false =>
    rw [networkTick_not_connected _ _ hc, connectionType_not_connected _ hc]
    simp
  | true =>
    rw [networkTick_connected _ _ hc, connectedSpeeds_nonpos_delta _ _ _ _ hd]
    simp

/-- Witness of the amended C4: stored timestamp 1000, wifi tick at `t = 500`. -/
theorem sendNetworkUpdate_nonpos_delta_witness :
    sendNetworkUpdate (.ok (wifiSample 70 80 500)) ⟨⟨none, 0, 0, 1000⟩, []⟩
      = .ok ⟨⟨none, 70, 80, 500⟩, [Event.onNetworkUpdate "wifi" (FP.fin 0) (FP.fin 0)]⟩ :=
  sendNetworkUpdate_nonpos_delta ⟨⟨none, 0, 0, 1000⟩, []⟩ (wifiSample 70 80 500) (by decide)

/-- C5, as stated, fails: from a fresh module, after a wifi tick `(rx = 1000, t = 1000)`
a tick with no network and counters `(rx = 5000, t = 3000)` publishes zero speeds but
leaves the stored reading at `(1000, 0, 1000)`; the next wifi tick `(rx = 6000, t = 4000)`
then publishes `downloadSpeed = (6000 - 1000) * 8 / 3000 / 1000`, computed from the last
connected tick, and not `(6000 - 5000) * 8 / 1000 / 1000`. -/
theorem none_tick_keeps_stored_reading :
    sendNetworkUpdate (.ok (noneSample 5000 0 3000)) ⟨⟨none, 1000, 0, 1000⟩, []⟩
      = .ok ⟨⟨none, 1000, 0, 1000⟩, [Event.onNetworkUpdate "none" (FP.fin 0) (FP.fin 0)]⟩
    ∧ (sendNetworkUpdate (.ok (wifiSample 1000 0 1000)) ⟨Module.fresh, []⟩
        >>= sendNetworkUpdate (.ok (noneSample 5000 0 3000))
        >>= sendNetworkUpdate (.ok (wifiSample 6000 0 4000)))
      = .ok ⟨⟨none, 6000, 0, 4000⟩,
          [Event.onNetworkUpdate "wifi" (FP.fin 0) (FP.fin 0),
           Event.onNetworkUpdate "none" (FP.fin 0) (FP.fin 0),
           Event.onNetworkUpdate "wifi" (FP.fin ((6000 - 1000) * 8 / 3000 / 1000)) (FP.fin 0)]⟩
    ∧ ((6000 - 1000) * 8 / 3000 / 1000 : ℚ) ≠ (6000 - 5000) * 8 / 1000 / 1000 := by
  refine ⟨by decide, ?_, by norm_num⟩
  simp [sendNetworkUpdate_ok, networkTick, wifiSample, noneSample, Module.fresh,
    connectedSpeeds, rateOf, Long.sub, wrapLong, FP.div, FP.mul, FP.ofInt, networkTypeOf,
    TYPE_WIFI, bind, Except.bind]
  norm_num

/-- C5, amended: a tick with no active connected network publishes type "none" with
`downloadSpeed = 0` and `uploadSpeed = 0` and leaves the stored reading unchanged, so a
connected tick that follows it publishes what it would have published without the
"none" tick: its rate spans the bytes and time since the last connected tick. -/
theorem sendNetworkUpdate_none (w : World) (s next : NetworkSample)
    (hc : s.connected = false) :
    sendNetworkUpdate (.ok s) w
      = .ok { module := w.module,
              log := w.log ++ [Event.onNetworkUpdate "none" (FP.fin 0) (FP.fin 0)] }
    ∧ (sendNetworkUpdate (.ok s) w >>= sendNetworkUpdate (.ok next))
      = .ok { module := (networkTick w.module next).1,
              log := w.log ++ [Event.onNetworkUpdate "none" (FP.fin 0) (FP.fin 0),
                (networkTick w.module next).2] } := by
  have h1 : sendNetworkUpdate (.ok s) w
      = .ok { module := w.module,
              log := w.log ++ [Event.onNetworkUpdate "none" (FP.fin 0) (FP.fin 0)] } := by
    rw [sendNetworkUpdate_ok, networkTick_not_connected _ _ hc]
  refine ⟨h1, ?_⟩
  rw [h1]
  simp [bind, Except.bind, sendNetworkUpdate_ok]

/-- Witness of the amended C5: stored reading `(1000, 0, 1000)`, a tick with no network
and counters `(5000, 0, 3000)`, then a wifi tick `(6000, 0, 4000)`. -/
theorem sendNetworkUpdate_none_witness :
    sendNetworkUpdate (.ok (noneSample 5000 0 3000)) ⟨⟨none, 1000, 0, 1000⟩, []⟩
      = .ok ⟨⟨none, 1000, 0, 1000⟩, [Event.onNetworkUpdate "none" (FP.fin 0) (FP.fin 0)]⟩ :=
  (sendNetworkUpdate_none ⟨⟨none, 1000, 0, 1000⟩, []⟩ (noneSample 5000 0 3000)
    (wifiSample 6000 0 4000) (by decide)).1

/-- C6: from a fresh module, two successive connected ticks with readings `rx = 1000`
and then `rx = 2000` taken 1000 ms later make the second tick publish
`downloadSpeed = (2000 - 1000) * 8 / 1000 / 1000 = 0.008`.  The times 0 and 1000 ms of
the scenario are counted from the first tick, whose clock reading `T` is any value
`System.currentTimeMillis()` returns on a device: a positive number of milliseconds. -/
theorem scenario_from_positive_time (T type1 type2 tx1 tx2 : Int)
    (hT : 0 < T) (hL : isLong (T + 1000)) :
    (sendNetworkUpdate (.ok (connectedSample type1 1000 tx1 T)) ⟨Module.fresh, []⟩
        >>= sendNetworkUpdate (.ok (connectedSample type2 2000 tx2 (T + 1000))))
      = .ok ⟨⟨none, 2000, tx2, T + 1000⟩,
          [Event.onNetworkUpdate (networkTypeOf type1) (FP.fin 0) (FP.fin 0),
           Event.onNetworkUpdate (networkTypeOf type2) (FP.fin (8 / 1000))
             (FP.fin ((Long.sub tx2 tx1 : ℚ) * 8 / 1000 / 1000))]⟩ := by
  have h1 : sendNetworkUpdate (.ok (connectedSample type1 1000 tx1 T)) ⟨Module.fresh, []⟩
      = .ok ⟨⟨none, 1000, tx1, T⟩,
          [Event.onNetworkUpdate (networkTypeOf type1) (FP.fin 0) (FP.fin 0)]⟩ := by
    rw [sendNetworkUpdate_first_tick_aux]
    rfl
  have h2 := sendNetworkUpdate_rate_aux
    ⟨⟨none, 1000, tx1, T⟩, [Event.onNetworkUpdate (networkTypeOf type1) (FP.fin 0) (FP.fin 0)]⟩
    (connectedSample type2 2000 tx2 (T + 1000)) rfl hT
    (by show T + 1000 > T; omega) hL
  rw [h1, ok_bind, h2]
  simp [connectedSample, Module.store, NetworkSample.connectionType, Long.sub, wrapLong]

/-- Witness of C6: the scenario with the first tick at the clock value `T = 5`. -/
theorem scenario_from_positive_time_witness :
    (sendNetworkUpdate (.ok (connectedSample TYPE_WIFI 1000 0 5)) ⟨Module.fresh, []⟩
        >>= sendNetworkUpdate (.ok (connectedSample TYPE_WIFI 2000 0 (5 + 1000))))
      = .ok ⟨⟨none, 2000, 0, 5 + 1000⟩,
          [Event.onNetworkUpdate (networkTypeOf TYPE_WIFI) (FP.fin 0) (FP.fin 0),
           Event.onNetworkUpdate (networkTypeOf TYPE_WIFI) (FP.fin (8 / 1000))
             (FP.fin ((Long.sub 0 0 : ℚ) * 8 / 1000 / 1000))]⟩ :=
  scenario_from_positive_time 5 TYPE_WIFI TYPE_WIFI 0 0 (by decide) (by decide)

/-! ## Battery -/

/-- C9, as stated, fails: a battery reading with `level = 50, scale = 0` publishes an
`onBatteryUpdate` event whose level is `+Infinity`; `level = 0, scale = 0` publishes the
level NaN; and a reading whose scale extra is missing (read as -1) with `level = 50`
publishes the level `50 / -1 * 100 = -5000` computed from that scale.  No reading is
reported as unavailable. -/
theorem sendBatteryUpdate_zero_scale_publishes :
    sendBatteryUpdate (.ok (some ⟨some 50, some 0, some 3⟩)) ⟨Module.fresh, []⟩
      = .ok ⟨Module.fresh, [Event.onBatteryUpdate (FP.inf false) false 2147483647 0]⟩
    ∧ sendBatteryUpdate (.ok (some ⟨some 0, some 0, some 3⟩)) ⟨Module.fresh, []⟩
      = .ok ⟨Module.fresh, [Event.onBatteryUpdate FP.nan false 0 0]⟩
    ∧ sendBatteryUpdate (.ok (some ⟨some 50, none, some 2⟩)) ⟨Module.fresh, []⟩
      = .ok ⟨Module.fresh, [Event.onBatteryUpdate (FP.fin (-5000)) true 0 367200]⟩
    ∧ (FP.inf false).isFinite = false ∧ FP.nan.isFinite = false := by
  refine ⟨by decide, by decide, ?_, by decide, by decide⟩
  simp [sendBatteryUpdate, catching, sendEvent, batteryEvent, intExtra, FP.div, FP.mul,
    FP.sub, FP.ofInt, FP.toInt, FP.truncQ, BATTERY_STATUS_CHARGING, BATTERY_STATUS_FULL,
    bind, Except.bind, pure, Except.pure, Module.fresh]
  norm_num

/-- C9, amended: for every battery reading whose scale is 0 or missing (read as -1),
`sendBatteryUpdate` raises no exception and publishes one `onBatteryUpdate` event whose
level is `level / scale * 100` in floating-point arithmetic: NaN when `scale = 0` and
`level = 0`, an infinity with the sign of `level` when `scale = 0` and `level ≠ 0`, and
`-level * 100` when the scale is read as -1. -/
theorem sendBatteryUpdate_degenerate_scale (w : World) (b : Option BatteryIntent)
    (h : intExtra b BatteryIntent.scale = 0 ∨ intExtra b BatteryIntent.scale = -1) :
    ∃ timeRemaining timeToFull : Int,
      sendBatteryUpdate (.ok b) w
        = .ok { module := w.module,
                log := w.log ++ [Event.onBatteryUpdate
                  (if intExtra b BatteryIntent.scale = 0 then
                    (if intExtra b BatteryIntent.level = 0 then FP.nan
                     else FP.inf (decide (intExtra b BatteryIntent.level < 0)))
                   else FP.fin (-(intExtra b BatteryIntent.level : ℚ) * 100))
                  (decide (intExtra b BatteryIntent.status = BATTERY_STATUS_CHARGING)
                    || decide (intExtra b BatteryIntent.status = BATTERY_STATUS_FULL))
                  timeRemaining timeToFull] } := by
  obtain ⟨timeRemaining, timeToFull, hev⟩ := batteryEvent_shape b
  refine ⟨timeRemaining, timeToFull, ?_⟩
  have hsend : sendBatteryUpdate (.ok b) w
      = .ok { module := w.module, log := w.log ++ [batteryEvent b] } := rfl
  rw [hsend, hev, batteryPct_degenerate _ _ h]

/-- Witness of the amended C9: the reading `level = 50, scale = 0`, not charging. -/
theorem sendBatteryUpdate_degenerate_scale_witness :
    ∃ timeRemaining timeToFull : Int,
      sendBatteryUpdate (.ok (some ⟨some 50, some 0, some 3⟩)) ⟨Module.fresh, []⟩
        = .ok ⟨Module.fresh,
            [Event.onBatteryUpdate (FP.inf false) false timeRemaining timeToFull]⟩ :=
  sendBatteryUpdate_degenerate_scale ⟨Module.fresh, []⟩ (some ⟨some 50, some 0, some 3⟩)
    (Or.inl (by decide))

/-! ## Fault isolation of a sampling round -/

/-- C10: a sampling round never lets an exception escape, whichever of the five category
reads throw, and it emits, in order, the event of every category whose read did not
throw (CPU, memory, battery, storage, network), each built from that category's reading. -/
theorem samplingRound_isolates (env : Env) (w : World) :
    samplingRound env w
      = .ok { module := w.module.afterNetwork env.network,
              log := w.log
                ++ emitted env.cpu Event.onCPUUpdate
                ++ emitted env.memory memoryEvent
                ++ emitted env.battery batteryEvent
                ++ emitted env.storage storageEvent
                ++ emitted env.network (fun s => (networkTick w.module s).2) } :=
  samplingRound_eq env w

/-! ## Polling timer -/

/-- C7: in every reachable state of the controller at most one timer is not cancelled,
and a timer that is not cancelled is the one held in `monitorTimer`.  `startMonitoring`
arms a new timer with delay 0 and period 2000 ms and leaves exactly one timer active;
called twice in succession it leaves the timer of the first call cancelled and the timer
of the second call as the only active one, held in `monitorTimer`. -/
theorem one_active_timer (as : List Action) (s : Sys) (h : run Sys.init as = some s) :
    activeTimers s ≤ 1
    ∧ (∀ (i : Nat) (t : Timer), s.timers[i]? = some t → t.cancelled = false →
        s.world.module.monitorTimer = some i)
    ∧ activeTimers (startMonitoring s) = 1
    ∧ (startMonitoring s).timers[s.timers.length]? = some armedTimer
    ∧ armedTimer = { cancelled := false, delay := 0, period := 2000, executing := false }
    ∧ activeTimers (startMonitoring (startMonitoring s)) = 1
    ∧ (startMonitoring (startMonitoring s)).timers[s.timers.length]?
        = some { armedTimer with cancelled := true }
    ∧ (startMonitoring (startMonitoring s)).timers[s.timers.length + 1]? = some armedTimer
    ∧ (startMonitoring (startMonitoring s)).world.module.monitorTimer
        = some (s.timers.length + 1) := by
  have hinv : HeldOnly s := heldOnly_run as Sys.init s heldOnly_init h
  have hlen := cancelHeld_length s
  refine ⟨filter_active_le_one s.timers _ hinv, hinv, activeTimers_startMonitoring s hinv,
    ?_, rfl, activeTimers_startMonitoring _ (heldOnly_startMonitoring s hinv), ?_, ?_, ?_⟩
  · show (cancelHeld s ++ [armedTimer])[s.timers.length]? = some armedTimer
    rw [← hlen]
    exact List.getElem?_concat_length _ _
  · rw [startMonitoring_twice_timers, ← hlen,
      List.getElem?_append_left (by simp), List.getElem?_concat_length]
  · rw [startMonitoring_twice_timers]
    have : s.timers.length + 1
        = (cancelHeld s ++ [{ armedTimer with cancelled := true }]).length := by
      simp [hlen]
    rw [this]
    exact List.getElem?_concat_length _ _
  · show some (cancelHeld (startMonitoring s)).length = _
    rw [cancelHeld_length]
    show some (cancelHeld s ++ [armedTimer]).length = _
    simp [hlen]

/-- Witness of C7: the state after `startMonitoring`, one task run, `startMonitoring`. -/
theorem one_active_timer_witness :
    activeTimers ⟨⟨⟨some 1, 0, 0, 0⟩, []⟩, [⟨true, 0, 2000, false⟩, ⟨false, 0, 2000, false⟩], 1⟩
      ≤ 1 :=
  (one_active_timer [.startMonitoring, .taskBegin 0, .taskPost 0, .startMonitoring]
    ⟨⟨⟨some 1, 0, 0, 0⟩, []⟩, [⟨true, 0, 2000, false⟩, ⟨false, 0, 2000, false⟩], 1⟩
    (by decide)).1

/-- C8, as stated, fails: after `startMonitoring`, one run of the timer task (which posts
a sampling round) and `stopMonitoring`, the log is empty; the posted round then runs and
emits the five events, although neither `startMonitoring` nor `forceUpdate` was called. -/
theorem events_after_stopMonitoring :
    run Sys.init [.startMonitoring, .taskBegin 0, .taskPost 0, .stopMonitoring]
      = some ⟨⟨⟨none, 0, 0, 0⟩, []⟩, [⟨true, 0, 2000, false⟩], 1⟩
    ∧ (Action.handlerRun sampleEnv).quiet = true
    ∧ run ⟨⟨⟨none, 0, 0, 0⟩, []⟩, [⟨true, 0, 2000, false⟩], 1⟩ [.handlerRun sampleEnv]
      = some ⟨⟨⟨none, 1000, 500, 1000⟩,
          [Event.onCPUUpdate (FP.fin 35),
           Event.onMemoryUpdate (FP.fin 4) (FP.fin 8) (FP.fin 4) (FP.fin 50),
           Event.onBatteryUpdate (FP.fin 50) false 7200 0,
           Event.onStorageUpdate (FP.fin 409600) (FP.fin 102400) (FP.fin 307200),
           Event.onNetworkUpdate "wifi" (FP.fin 0) (FP.fin 0)]⟩,
          [⟨true, 0, 2000, false⟩], 0⟩ := by
  refine ⟨by decide, rfl, ?_⟩
  simp [run, step, handlerRun, samplingRound_eq, emitted, sampleEnv, memoryEvent,
    batteryEvent, storageEvent, networkTick, wifiSample, connectedSpeeds, intExtra,
    Module.afterNetwork, Long.sub, Long.mul, wrapLong, FP.div, FP.mul, FP.sub, FP.ofInt,
    FP.toInt, FP.truncQ, networkTypeOf, TYPE_WIFI, BATTERY_STATUS_CHARGING,
    BATTERY_STATUS_FULL]
  norm_num

/-- C8, amended: from every reachable state, once `stopMonitoring` has returned and as
long as neither `startMonitoring` nor `forceUpdate` is called, no timer task starts any
more (every timer stays cancelled), and the events emitted afterwards come only from the
sampling rounds that were already posted to the main handler or whose timer task was
already executing when `stopMonitoring` was called: at most five events for each such
round, and none when there is no such round. -/
theorem events_after_stop_bounded (as1 as2 : List Action) (s0 s2 : Sys)
    (h1 : run Sys.init as1 = some s0)
    (hq : ∀ a ∈ as2, a.quiet = true)
    (h2 : run (stopMonitoring s0) as2 = some s2) :
    activeTimers s2 = 0
    ∧ (∃ evs, s2.world.log = (stopMonitoring s0).world.log ++ evs
        ∧ evs.length ≤ 5 * pendingRounds (stopMonitoring s0))
    ∧ (pendingRounds (stopMonitoring s0) = 0 → s2.world.log = (stopMonitoring s0).world.log) := by
  have hinv : HeldOnly s0 := heldOnly_run as1 Sys.init s0 heldOnly_init h1
  have hall : AllCancelled (stopMonitoring s0).timers := cancelHeld_allCancelled s0 hinv
  obtain ⟨hall2, evs, hlog, hlen⟩ := quiet_run as2 (stopMonitoring s0) s2 hall hq h2
  refine ⟨?_, ⟨evs, hlog, by omega⟩, ?_⟩
  · unfold activeTimers
    rw [filter_allCancelled _ hall2]
    rfl
  · intro h0
    rw [h0] at hlen
    have : evs = [] := List.eq_nil_of_length_eq_zero (by omega)
    rw [hlog, this, List.append_nil]

/-- Witness of the amended C8: `startMonitoring`, one task run, `stopMonitoring`, then
the posted round runs. -/
theorem events_after_stop_bounded_witness :
    ∃ evs, [Event.onCPUUpdate (FP.fin 35)]
        = (stopMonitoring ⟨⟨⟨some 0, 0, 0, 0⟩, []⟩, [⟨false, 0, 2000, false⟩], 1⟩).world.log
            ++ evs
      ∧ evs.length
        ≤ 5 * pendingRounds
            (stopMonitoring ⟨⟨⟨some 0, 0, 0, 0⟩, []⟩, [⟨false, 0, 2000, false⟩], 1⟩) :=
  (events_after_stop_bounded [.startMonitoring, .taskBegin 0, .taskPost 0]
    [.handlerRun ⟨.ok (FP.fin 35), .error "", .error "", .error "", .error ""⟩]
    ⟨⟨⟨some 0, 0, 0, 0⟩, []⟩, [⟨false, 0, 2000, false⟩], 1⟩
    ⟨⟨⟨none, 0, 0, 0⟩, [Event.onCPUUpdate (FP.fin 35)]⟩, [⟨true, 0, 2000, false⟩], 0⟩
    (by decide) (by decide) (by decide)).2.1

/-! ## Battery and memory payloads -/

theorem wrapLong_isLong (i : Int) : isLong (wrapLong i) := by
  unfold wrapLong isLong
  omega

theorem batteryEvent_times (b : Option BatteryIntent) :
    ∃ (level : FP) (timeRemaining timeToFull : Int),
      batteryEvent b
        = Event.onBatteryUpdate level
            (decide (intExtra b BatteryIntent.status = BATTERY_STATUS_CHARGING)
              || decide (intExtra b BatteryIntent.status = BATTERY_STATUS_FULL))
            timeRemaining timeToFull
      ∧ ((intExtra b BatteryIntent.status = BATTERY_STATUS_CHARGING
            ∨ intExtra b BatteryIntent.status = BATTERY_STATUS_FULL) → timeRemaining = 0)
      ∧ (¬ (intExtra b BatteryIntent.status = BATTERY_STATUS_CHARGING
            ∨ intExtra b BatteryIntent.status = BATTERY_STATUS_FULL) → timeToFull = 0)
      ∧ (timeRemaining = 0 ∨ timeToFull = 0) := by
  by_cases h : intExtra b BatteryIntent.status = BATTERY_STATUS_CHARGING
      ∨ intExtra b BatteryIntent.status = BATTERY_STATUS_FULL
  · have hc : (decide (intExtra b BatteryIntent.status = BATTERY_STATUS_CHARGING)
        || decide (intExtra b BatteryIntent.status = BATTERY_STATUS_FULL)) = true := by
      simpa using h
    exact ⟨_, 0, _, by
      unfold batteryEvent
      simp only [hc, Bool.not_true, Bool.not_false, Bool.false_eq_true, if_true, if_false]
      rfl, fun _ => rfl, fun hn => absurd h hn, Or.inl rfl⟩
  · have hc : (decide (intExtra b BatteryIntent.status = BATTERY_STATUS_CHARGING)
        || decide (intExtra b BatteryIntent.status = BATTERY_STATUS_FULL)) = false := by
      simpa using h
    exact ⟨_, _, 0, by
      unfold batteryEvent
      simp only [hc, Bool.not_true, Bool.not_false, Bool.false_eq_true, if_true, if_false]
      rfl, fun hp => absurd hp h, fun _ => rfl, Or.inr rfl⟩

theorem memoryEvent_eq (mem : MemoryInfo) (htotal : 0 < mem.totalMem) :
    memoryEvent mem
      = Event.onMemoryUpdate (FP.fin (Long.sub mem.totalMem mem.availMem : ℚ))
          (FP.fin (mem.totalMem : ℚ)) (FP.fin (mem.availMem : ℚ))
          (FP.fin ((Long.sub mem.totalMem mem.availMem : ℚ) / (mem.totalMem : ℚ) * 100)) := by
  have h : (mem.totalMem : ℚ) ≠ 0 := by
    have : (0 : ℚ) < (mem.totalMem : ℚ) := by exact_mod_cast htotal
    exact ne_of_gt this
  simp [memoryEvent, FP.ofInt, FP.div, FP.mul, h]

/-- C12: for every battery reading, the `onBatteryUpdate` payload has `isCharging` true
exactly when the status is CHARGING or FULL, `timeRemaining = 0` whenever it is charging
and `timeToFull = 0` whenever it is not; so at most one of the two time fields is
non-zero. -/
theorem sendBatteryUpdate_time_fields (w : World) (b : Option BatteryIntent) :
    ∃ (level : FP) (isCharging : Bool) (timeRemaining timeToFull : Int),
      sendBatteryUpdate (.ok b) w
        = .ok { module := w.module,
                log := w.log
                  ++ [Event.onBatteryUpdate level isCharging timeRemaining timeToFull] }
      ∧ (isCharging = true ↔
          intExtra b BatteryIntent.status = BATTERY_STATUS_CHARGING
            ∨ intExtra b BatteryIntent.status = BATTERY_STATUS_FULL)
      ∧ (isCharging = true → timeRemaining = 0)
      ∧ (isCharging = false → timeToFull = 0)
      ∧ (timeRemaining = 0 ∨ timeToFull = 0) := by
  obtain ⟨level, timeRemaining, timeToFull, hev, h1, h2, h3⟩ := batteryEvent_times b
  refine ⟨level, (decide (intExtra b BatteryIntent.status = BATTERY_STATUS_CHARGING)
    || decide (intExtra b BatteryIntent.status = BATTERY_STATUS_FULL)),
    timeRemaining, timeToFull, ?_, ?_, ?_, ?_, h3⟩
  · have hsend : sendBatteryUpdate (.ok b) w
        = .ok { module := w.module, log := w.log ++ [batteryEvent b] } := rfl
    rw [hsend, hev]
  · simp
  · intro hc
    exact h1 (by simpa using hc)
  · intro hc
    exact h2 (by simpa using hc)

/-- Witness of C12: a charging battery at 50 of 100 has `timeRemaining = 0`, and a
discharging one has `timeToFull = 0`. -/
theorem sendBatteryUpdate_time_fields_witness :
    sendBatteryUpdate (.ok (some ⟨some 50, some 100, some 2⟩)) ⟨Module.fresh, []⟩
      = .ok ⟨Module.fresh, [Event.onBatteryUpdate (FP.fin 50) true 0 3600]⟩
    ∧ sendBatteryUpdate (.ok (some ⟨some 50, some 100, some 3⟩)) ⟨Module.fresh, []⟩
      = .ok ⟨Module.fresh, [Event.onBatteryUpdate (FP.fin 50) false 7200 0]⟩
    ∧ ∃ (level : FP) (isCharging : Bool) (timeRemaining timeToFull : Int),
        sendBatteryUpdate (.ok (some ⟨some 50, some 100, some 2⟩)) ⟨Module.fresh, []⟩
          = .ok ⟨Module.fresh,
              [Event.onBatteryUpdate level isCharging timeRemaining timeToFull]⟩
        ∧ isCharging = true ∧ timeRemaining = 0 := by
  refine ⟨?_, ?_, ?_⟩
  · simp [sendBatteryUpdate, catching, sendEvent, batteryEvent, intExtra, FP.div, FP.mul,
      FP.sub, FP.ofInt, FP.toInt, FP.truncQ, BATTERY_STATUS_CHARGING, BATTERY_STATUS_FULL,
      bind, Except.bind, pure, Except.pure, Module.fresh]
    norm_num
  · simp [sendBatteryUpdate, catching, sendEvent, batteryEvent, intExtra, FP.div, FP.mul,
      FP.sub, FP.ofInt, FP.toInt, FP.truncQ, BATTERY_STATUS_CHARGING, BATTERY_STATUS_FULL,
      bind, Except.bind, pure, Except.pure, Module.fresh]
    norm_num
  · obtain ⟨level, isCharging, timeRemaining, timeToFull, h, hiff, hrem, _, _⟩ :=
      sendBatteryUpdate_time_fields ⟨Module.fresh, []⟩ (some ⟨some 50, some 100, some 2⟩)
    have hc : isCharging = true := hiff.mpr (Or.inl (by decide))
    exact ⟨level, isCharging, timeRemaining, timeToFull, h, hc, hrem hc⟩

/-- C13: for every memory reading with `totalMem > 0`, the `onMemoryUpdate` payload has
`used = total - available` (the `Long` subtraction of the source, which is the
mathematical difference whenever that fits in 64 bits) and
`usagePercent = used / total * 100`; a reading with 4 GiB used of 8 GiB gives
`usagePercent = 50`. -/
theorem sendMemoryUpdate_payload (w : World) (mem : MemoryInfo) (htotal : 0 < mem.totalMem) :
    sendMemoryUpdate (.ok mem) w
      = .ok { module := w.module,
              log := w.log ++ [Event.onMemoryUpdate
                (FP.fin (Long.sub mem.totalMem mem.availMem : ℚ))
                (FP.fin (mem.totalMem : ℚ)) (FP.fin (mem.availMem : ℚ))
                (FP.fin ((Long.sub mem.totalMem mem.availMem : ℚ)
                  / (mem.totalMem : ℚ) * 100))] }
    ∧ (isLong (mem.totalMem - mem.availMem) →
        Long.sub mem.totalMem mem.availMem = mem.totalMem - mem.availMem)
    ∧ sendMemoryUpdate (.ok ⟨8 * 1024 * 1024 * 1024, 4 * 1024 * 1024 * 1024⟩) w
      = .ok { module := w.module,
              log := w.log ++ [Event.onMemoryUpdate (FP.fin (4 * 1024 * 1024 * 1024))
                (FP.fin (8 * 1024 * 1024 * 1024)) (FP.fin (4 * 1024 * 1024 * 1024))
                (FP.fin 50)] } := by
  have hsend : ∀ m : MemoryInfo, sendMemoryUpdate (.ok m) w
      = .ok { module := w.module, log := w.log ++ [memoryEvent m] } := fun _ => rfl
  refine ⟨?_, Long.sub_eq, ?_⟩
  · rw [hsend, memoryEvent_eq mem htotal]
  · rw [hsend, memoryEvent_eq _ (by decide)]
    simp [Long.sub, wrapLong]
    norm_num

/-- Witness of C13: the reading `totalMem = 8 GiB`, `availMem = 4 GiB`. -/
theorem sendMemoryUpdate_payload_witness :
    sendMemoryUpdate (.ok ⟨8 * 1024 * 1024 * 1024, 4 * 1024 * 1024 * 1024⟩)
        ⟨Module.fresh, []⟩
      = .ok ⟨Module.fresh,
          [Event.onMemoryUpdate (FP.fin (4 * 1024 * 1024 * 1024))
            (FP.fin (8 * 1024 * 1024 * 1024)) (FP.fin (4 * 1024 * 1024 * 1024))
            (FP.fin 50)]⟩ :=
  (sendMemoryUpdate_payload ⟨Module.fresh, []⟩
    ⟨8 * 1024 * 1024 * 1024, 4 * 1024 * 1024 * 1024⟩ (by decide)).2.2

/-! ## The fallback source -/

theorem getFallbackData_cases (env : FallbackEnv) (scr : Screen) :
    (memoryRejects env = true → getFallbackData env scr = scr)
    ∧ (∀ u t, env.usedMemory = .ok u → env.totalMemory = .ok t →
        batteryRejects env = true →
        getFallbackData env scr = setMemory u t scr)
    ∧ (∀ u t b c, env.usedMemory = .ok u → env.totalMemory = .ok t →
        env.batteryLevel = .ok b → env.batteryCharging = .ok c →
        storageRejects env = true →
        getFallbackData env scr = setBattery b c (setMemory u t scr))
    ∧ (∀ u t b c f d, env.usedMemory = .ok u → env.totalMemory = .ok t →
        env.batteryLevel = .ok b → env.batteryCharging = .ok c →
        env.freeDisk = .ok f → env.totalDisk = .ok d →
        rejected env.netType = true →
        getFallbackData env scr = setStorage f d (setBattery b c (setMemory u t scr)))
    ∧ (∀ u t b c f d n, env.usedMemory = .ok u → env.totalMemory = .ok t →
        env.batteryLevel = .ok b → env.batteryCharging = .ok c →
        env.freeDisk = .ok f → env.totalDisk = .ok d → env.netType = .ok n →
        getFallbackData env scr
          = setNetwork n env.now
              (setStorage f d (setBattery b c (setMemory u t scr)))) := by
  obtain ⟨um, tm, bl, bc, fd, td, nt, now⟩ := env
  refine ⟨?_, ?_, ?_, ?_, ?_⟩
  · intro h
    cases um <;> cases tm <;>
      simp_all [memoryRejects, rejected, getFallbackData, await]
  · intro u t hu ht h
    simp only at hu ht
    subst hu ht
    cases bl <;> cases bc <;>
      simp_all [batteryRejects, rejected, getFallbackData, await]
  · intro u t b c hu ht hb hc h
    simp only at hu ht hb hc
    subst hu ht hb hc
    cases fd <;> cases td <;>
      simp_all [storageRejects, rejected, getFallbackData, await]
  · intro u t b c f d hu ht hb hc hf hd h
    simp only at hu ht hb hc hf hd
    subst hu ht hb hc hf hd
    cases nt <;> simp_all [rejected, getFallbackData, await]
  · intro u t b c f d n hu ht hb hc hf hd hn
    simp only at hu ht hb hc hf hd hn
    subst hu ht hb hc hf hd hn
    rfl

/-- C11, as stated, fails: in a run of `getFallbackData` whose memory read rejects while
the battery, storage and network reads all succeed, no setter is called: the screen keeps
its initial battery level 100, storage 0 and network type "Unknown", although the same
run with a working memory read delivers battery level 50, storage 96 of 128 GB and
"wifi".  A rejecting battery read likewise keeps the storage and network values from
being delivered. -/
theorem fallback_rejection_stops_later_categories :
    getFallbackData { sampleFallback with usedMemory := .error "rejected" } (Screen.initial 0)
      = Screen.initial 0
    ∧ getFallbackData sampleFallback (Screen.initial 0)
      = { memoryUsage := .fin 50, memoryUsedGB := .fixed (.fin 4) 1,
          memoryTotalGB := .fixed (.fin 8) 1, batteryLevel := .fin 50, isCharging := true,
          storageUsed := .fixed (.fin 96) 0, storageTotal := .fixed (.fin 128) 0,
          storageFree := .fixed (.fin 32) 0, networkType := "wifi", lastUpdate := 7 }
    ∧ getFallbackData { sampleFallback with batteryLevel := .error "rejected" }
        (Screen.initial 0)
      = { memoryUsage := .fin 50, memoryUsedGB := .fixed (.fin 4) 1,
          memoryTotalGB := .fixed (.fin 8) 1, batteryLevel := .fin 100, isCharging := false,
          storageUsed := .num (.fin 0), storageTotal := .num (.fin 0),
          storageFree := .num (.fin 0), networkType := "Unknown", lastUpdate := 0 } := by
  refine ⟨rfl, ?_, ?_⟩
  · simp [getFallbackData, await, sampleFallback, setMemory, setBattery, setStorage,
      setNetwork, Screen.initial, FP.div, FP.mul, FP.sub, FP.toFixed, toFixedQ, GiB]
    norm_num
  · simp [getFallbackData, await, sampleFallback, setMemory, Screen.initial, FP.div,
      FP.mul, FP.toFixed, toFixedQ, GiB]
    norm_num

/-- C11, amended: one run of `getFallbackData` reads the categories in the order memory,
battery, storage, network type inside a single `try` block, and no rejection escapes it.
The values of a category are delivered exactly when its own reads and the reads of every
category before it succeed: the first category whose read rejects, and every category
after it, get no setter call in that run, while the categories before it are delivered. -/
theorem getFallbackData_in_order (env : FallbackEnv) (scr : Screen) :
    (memoryRejects env = true → getFallbackData env scr = scr)
    ∧ (∀ u t, env.usedMemory = .ok u → env.totalMemory = .ok t →
        batteryRejects env = true →
        getFallbackData env scr = setMemory u t scr)
    ∧ (∀ u t b c, env.usedMemory = .ok u → env.totalMemory = .ok t →
        env.batteryLevel = .ok b → env.batteryCharging = .ok c →
        storageRejects env = true →
        getFallbackData env scr = setBattery b c (setMemory u t scr))
    ∧ (∀ u t b c f d, env.usedMemory = .ok u → env.totalMemory = .ok t →
        env.batteryLevel = .ok b → env.batteryCharging = .ok c →
        env.freeDisk = .ok f → env.totalDisk = .ok d →
        rejected env.netType = true →
        getFallbackData env scr = setStorage f d (setBattery b c (setMemory u t scr)))
    ∧ (∀ u t b c f d n, env.usedMemory = .ok u → env.totalMemory = .ok t →
        env.batteryLevel = .ok b → env.batteryCharging = .ok c →
        env.freeDisk = .ok f → env.totalDisk = .ok d → env.netType = .ok n →
        getFallbackData env scr
          = setNetwork n env.now
              (setStorage f d (setBattery b c (setMemory u t scr)))) :=
  getFallbackData_cases env scr

/-- Witness of the amended C11: the network read rejects after memory, battery and
storage were read: these three are delivered and the network type is not. -/
theorem getFallbackData_in_order_witness :
    getFallbackData { sampleFallback with netType := .error "rejected" } (Screen.initial 0)
      = setStorage (.fin (32 * GiB)) (.fin (128 * GiB))
          (setBattery (.fin (1 / 2)) true
            (setMemory (.fin (4 * GiB)) (.fin (8 * GiB)) (Screen.initial 0))) :=
  (getFallbackData_in_order { sampleFallback with netType := .error "rejected" }
    (Screen.initial 0)).2.2.2.1 _ _ _ _ _ _ rfl rfl rfl rfl rfl rfl rfl

/-! ## Storage -/

theorem toFixedQ_zero_intCast (n : Int) (h0 : 0 ≤ n) (h : n < 10 ^ 21) :
    toFixedQ 0 (n : ℚ) = (n : ℚ) := by
  have hq0 : (0 : ℚ) ≤ (n : ℚ) := by exact_mod_cast h0
  have hq : (n : ℚ) < 10 ^ 21 := by exact_mod_cast h
  have h1 : ¬ ((10 : ℚ) ^ 21 ≤ |(n : ℚ)|) := by
    rw [abs_of_nonneg hq0]
    exact not_le.mpr hq
  have h2 : ¬ ((n : ℚ) < 0) := not_lt.mpr hq0
  have h3 : ⌊(n : ℚ) + 1 / 2⌋ = n := by
    rw [Int.floor_eq_iff]
    constructor <;> norm_num
  unfold toFixedQ
  simp only [h1, h2, if_false, pow_zero, mul_one, div_one, h3]

theorem toFixedQ_of_nonneg (digits : Nat) (q : ℚ) (h0 : 0 ≤ q) (h : q < 10 ^ 21) :
    toFixedQ digits q = ((⌊q * 10 ^ digits + 1 / 2⌋ : Int) : ℚ) / 10 ^ digits := by
  have h1 : ¬ ((10 : ℚ) ^ 21 ≤ |q|) := by
    rw [abs_of_nonneg h0]
    exact not_le.mpr h
  have h2 : ¬ (q < 0) := not_lt.mpr h0
  unfold toFixedQ
  simp only [h1, h2, if_false]

theorem storageEvent_eq (stat : StatFs) (total free : Int)
    (htot : Long.mul stat.blockCountLong stat.blockSizeLong = total)
    (hfr : Long.mul stat.availableBlocksLong stat.blockSizeLong = free)
    (hfree0 : 0 ≤ free) (hfree : free ≤ total) :
    storageEvent stat
      = Event.onStorageUpdate (FP.fin (total : ℚ)) (FP.fin (free : ℚ))
          (FP.fin ((total - free : Int) : ℚ)) := by
  have hL : isLong total := by rw [← htot]; exact wrapLong_isLong _
  have hfit : isLong (total - free) := by
    unfold isLong at hL ⊢
    omega
  have hsub : Long.sub total free = total - free := Long.sub_eq hfit
  unfold storageEvent
  simp only [htot, hfr, hsub, FP.ofInt]

theorem roundHalfEven_eq (x : ℚ) (n : Int) (h1 : (n : ℚ) - 1 / 2 < x)
    (h2 : x < n + 1 / 2) : roundHalfEven x = n := by
  have hf : ⌊x + 1 / 2⌋ = n := by
    rw [Int.floor_eq_iff]
    constructor <;> linarith
  unfold roundHalfEven
  simp only [hf]
  have : ¬ ((n : ℚ) = x + 1 / 2 ∧ n % 2 = 1) := by
    intro h
    linarith [h.1]
  rw [if_neg this]

theorem log_two_eq (a : ℚ) (e : Int) (h1 : (2 : ℚ) ^ e ≤ a) (h2 : a < 2 ^ (e + 1)) :
    Int.log 2 a = e := by
  have ha : 0 < a := lt_of_lt_of_le (by positivity) h1
  apply le_antisymm
  · have := (Int.lt_zpow_iff_log_lt (b := 2) (by norm_num) ha (x := e + 1)).mp
      (by exact_mod_cast h2)
    omega
  · exact (Int.zpow_le_iff_le_log (b := 2) (by norm_num) ha).mp (by exact_mod_cast h1)

theorem round64Q_pos (q : ℚ) (e n : Int) (h1 : (2 : ℚ) ^ e ≤ q) (h2 : q < 2 ^ (e + 1))
    (he : -1022 ≤ e) (hn1 : (n : ℚ) - 1 / 2 < q / 2 ^ (e - 52))
    (hn2 : q / 2 ^ (e - 52) < n + 1 / 2) (hlt : (n : ℚ) * 2 ^ (e - 52) < 2 ^ 1024) :
    round64Q q = .fin ((n : ℚ) * 2 ^ (e - 52)) := by
  have hq : 0 < q := lt_of_lt_of_le (by positivity) h1
  have habs : |q| = q := abs_of_pos hq
  have hlog : Int.log 2 q = e := log_two_eq q e h1 h2
  unfold round64Q
  simp only [habs, hlog, max_eq_left he, ne_of_gt hq, if_false, roundHalfEven_eq _ n hn1 hn2,
    not_le.mpr hlt, not_lt.mpr (le_of_lt hq)]

theorem round64Q_dyadic (k : Int) (s : Nat) (hk0 : 0 < k) (hk : k < 2 ^ 53) (hs : s ≤ 1022) :
    round64Q ((k : ℚ) / 2 ^ s) = .fin ((k : ℚ) / 2 ^ s) := by
  have hkq0 : (0 : ℚ) < (k : ℚ) := by exact_mod_cast hk0
  have hkq : (k : ℚ) < 2 ^ 53 := by exact_mod_cast hk
  have hk1 : (1 : ℚ) ≤ (k : ℚ) := by exact_mod_cast hk0
  have hpow : (0 : ℚ) < 2 ^ s := by positivity
  have hq : 0 < (k : ℚ) / 2 ^ s := div_pos hkq0 hpow
  obtain ⟨e, he⟩ : ∃ e, e = Int.log 2 ((k : ℚ) / 2 ^ s) := ⟨_, rfl⟩
  have h1 : (2 : ℚ) ^ e ≤ (k : ℚ) / 2 ^ s := by
    rw [he]
    exact_mod_cast Int.zpow_log_le_self (b := 2) (by norm_num) hq
  have h2 : (k : ℚ) / 2 ^ s < 2 ^ (e + 1) := by
    rw [he]
    exact_mod_cast Int.lt_zpow_succ_log_self (b := 2) (by norm_num) ((k : ℚ) / 2 ^ s)
  have hlow : -(s : Int) ≤ e := by
    rw [he]
    apply (Int.zpow_le_iff_le_log (b := 2) (by norm_num) hq).mp
    rw [zpow_neg, zpow_natCast]
    push_cast
    rw [inv_eq_one_div]
    exact div_le_div_of_nonneg_right hk1 (le_of_lt hpow)
  have hhigh : e < 53 - (s : Int) := by
    rw [he]
    apply (Int.lt_zpow_iff_log_lt (b := 2) (by norm_num) hq).mp
    rw [zpow_sub₀ (by norm_num), zpow_natCast]
    have h := div_lt_div_of_pos_right hkq hpow
    norm_num at h ⊢
    exact h
  obtain ⟨m, hm⟩ : ∃ m : Nat, (m : Int) = 52 - s - e := ⟨(52 - s - e).toNat, by omega⟩
  have hscale : (k : ℚ) / 2 ^ s / 2 ^ (e - 52) = ((k * 2 ^ m : Int) : ℚ) := by
    have : (e - 52 : Int) = -((s : Int) + (m : Int)) := by omega
    rw [this, zpow_neg, zpow_add₀ (by norm_num), zpow_natCast, zpow_natCast]
    push_cast
    field_simp
    ring
  have hval : ((k * 2 ^ m : Int) : ℚ) * 2 ^ (e - 52) = (k : ℚ) / 2 ^ s := by
    rw [← hscale]
    have : (2 : ℚ) ^ (e - 52) ≠ 0 := by positivity
    field_simp
    ring
  have := round64Q_pos ((k : ℚ) / 2 ^ s) e (k * 2 ^ m) h1 h2 (by omega)
    (by rw [hscale]; linarith) (by rw [hscale]; linarith)
    (by
      rw [hval]
      calc (k : ℚ) / 2 ^ s ≤ k := div_le_self (le_of_lt hkq0) (one_le_pow₀ (by norm_num))
        _ < 2 ^ 53 := hkq
        _ < 2 ^ 1024 := by norm_num)
  rw [this, hval]

theorem round64Q_intCast (k : Int) (hk0 : 0 ≤ k) (hk : k < 2 ^ 53) :
    round64Q (k : ℚ) = .fin (k : ℚ) := by
  rcases eq_or_lt_of_le hk0 with h | h
  · subst h
    simp [round64Q]
  · have := round64Q_dyadic k 0 h hk (by omega)
    simpa using this

theorem div64_GiB (k : Int) (hk0 : 0 ≤ k) (hk : k < 2 ^ 53) :
    FP.div64 (.fin (k : ℚ)) (.fin GiB) = .fin ((k : ℚ) / GiB) := by
  have hG : GiB = 2 ^ 30 := by norm_num [GiB]
  have hne : (2 : ℚ) ^ 30 ≠ 0 := by norm_num
  rw [hG]
  show FP.round64 (FP.div (.fin (k : ℚ)) (.fin (2 ^ 30))) = _
  simp only [FP.div, hne, if_false, FP.round64]
  rcases eq_or_lt_of_le hk0 with h | h
  · subst h
    simp [round64Q]
  · exact round64Q_dyadic k 30 h hk (by omega)

theorem storageListener_strings (total free used : Int) (now : Int) (scr : Screen)
    (ht0 : 0 ≤ total) (ht : total < 2 ^ 53) (hf0 : 0 ≤ free) (hf : free < 2 ^ 53)
    (hu0 : 0 ≤ used) (hu : used < 2 ^ 53) :
    storageListener (Event.onStorageUpdate (.fin (total : ℚ)) (.fin (free : ℚ))
        (.fin (used : ℚ))) now scr
      = { scr with
          storageUsed := .fixed (.fin (toFixedQ 0 ((used : ℚ) / GiB))) 0
          storageTotal := .fixed (.fin (toFixedQ 0 ((total : ℚ) / GiB))) 0
          storageFree := .fixed (.fin (toFixedQ 0 ((free : ℚ) / GiB))) 0
          lastUpdate := now } := by
  simp only [storageListener, div64_GiB total ht0 ht, div64_GiB free hf0 hf,
    div64_GiB used hu0 hu, FP.toFixed]

theorem storagePercent_strings (scr : Screen) (U T : ℚ)
    (hU : scr.storageUsed = .fixed (.fin U) 0) (hT : scr.storageTotal = .fixed (.fin T) 0) :
    storagePercent scr
      = if 0 < T then FP.toFixed 0 (FP.mul64 (FP.div64 (.fin U) (.fin T)) (.fin 100))
        else JSVal.num (.fin 0) := by
  unfold storagePercent
  simp only [hU, hT, JSVal.toNumber, FP.gt, decide_eq_true_eq]

theorem storagePercent_listener (total free used : Int) (now : Int) (scr : Screen)
    (ht0 : 0 ≤ total) (ht : total < 2 ^ 53) (hf0 : 0 ≤ free) (hf : free < 2 ^ 53)
    (hu0 : 0 ≤ used) (hu : used < 2 ^ 53) :
    storagePercent (storageListener (Event.onStorageUpdate (.fin (total : ℚ))
        (.fin (free : ℚ)) (.fin (used : ℚ))) now scr)
      = if 0 < toFixedQ 0 ((total : ℚ) / GiB) then
          FP.toFixed 0 (FP.mul64 (FP.div64 (.fin (toFixedQ 0 ((used : ℚ) / GiB)))
            (.fin (toFixedQ 0 ((total : ℚ) / GiB)))) (.fin 100))
        else JSVal.num (.fin 0) := by
  rw [storageListener_strings total free used now scr ht0 ht hf0 hf hu0 hu]
  exact storagePercent_strings _ _ _ rfl rfl

theorem storagePercent_whole_GiB (a b : Int) (now : Int) (scr : Screen)
    (ha : 0 < a) (hb0 : 0 ≤ b) (hba : b ≤ a) (haL : a * 2 ^ 30 < 2 ^ 53) :
    storagePercent (storageListener (Event.onStorageUpdate (.fin ((a * 2 ^ 30 : Int) : ℚ))
        (.fin ((b * 2 ^ 30 : Int) : ℚ)) (.fin ((a * 2 ^ 30 - b * 2 ^ 30 : Int) : ℚ))) now scr)
      = FP.toFixed 0 (FP.mul64 (FP.div64 (.fin ((a - b : Int) : ℚ)) (.fin (a : ℚ)))
          (.fin 100)) := by
  have hG : GiB = 2 ^ 30 := by norm_num [GiB]
  have haq : (0 : ℚ) < (a : ℚ) := by exact_mod_cast ha
  have e1 : ((a * 2 ^ 30 : Int) : ℚ) / GiB = ((a : Int) : ℚ) := by
    rw [hG]; push_cast; field_simp; norm_num
  have e2 : ((a * 2 ^ 30 - b * 2 ^ 30 : Int) : ℚ) / GiB = ((a - b : Int) : ℚ) := by
    rw [hG]; push_cast; field_simp; ring
  rw [storagePercent_listener _ _ _ now scr (by omega) haL (by omega) (by omega)
      (by omega) (by omega),
    e1, e2, toFixedQ_zero_intCast a (le_of_lt ha) (by omega),
    toFixedQ_zero_intCast (a - b) (by omega) (by omega), if_pos haq]

theorem div64_same_ratio (a b : Int) (ha : 0 < a) :
    FP.div64 (.fin ((a * 2 ^ 30 - b * 2 ^ 30 : Int) : ℚ)) (.fin ((a * 2 ^ 30 : Int) : ℚ))
      = FP.div64 (.fin ((a - b : Int) : ℚ)) (.fin (a : ℚ)) := by
  have haq : (a : ℚ) ≠ 0 := by exact_mod_cast (ne_of_gt ha)
  have h1 : ((a * 2 ^ 30 : Int) : ℚ) ≠ 0 := by push_cast; positivity
  have e3 : ((a * 2 ^ 30 - b * 2 ^ 30 : Int) : ℚ) / ((a * 2 ^ 30 : Int) : ℚ)
      = ((a - b : Int) : ℚ) / (a : ℚ) := by
    push_cast
    field_simp
    ring
  simp only [FP.div64, FP.div, h1, haq, if_false, e3]

theorem toFixedQ_zero_floor (x : ℚ) (n : Int) (h0 : 0 ≤ x) (h : x < 10 ^ 21)
    (h1 : (n : ℚ) - 1 / 2 ≤ x) (h2 : x < n + 1 / 2) : toFixedQ 0 x = n := by
  rw [toFixedQ_of_nonneg 0 x h0 h]
  have : ⌊x * 10 ^ 0 + 1 / 2⌋ = n := by
    rw [Int.floor_eq_iff]
    constructor <;> norm_num <;> linarith
  rw [this]
  norm_num

theorem percent_of_96_of_128 :
    FP.toFixed 0 (FP.mul64 (FP.div64 (.fin ((128 - 32 : Int) : ℚ)) (.fin ((128 : Int) : ℚ)))
        (.fin 100))
      = JSVal.fixed (.fin 75) 0 := by
  have d : round64Q (3 / 4) = .fin (3 / 4) := by
    have := round64Q_dyadic 3 2 (by decide) (by decide) (by decide)
    norm_num at this ⊢
    exact this
  have m : round64Q (3 / 4 * 100) = .fin 75 := by
    have := round64Q_intCast 75 (by decide) (by decide)
    norm_num at this ⊢
    exact this
  have f : toFixedQ 0 75 = 75 := by
    have := toFixedQ_zero_intCast 75 (by decide) (by decide)
    norm_num at this ⊢
    exact this
  have hne : ((128 : Int) : ℚ) ≠ 0 := by norm_num
  have hq : ((128 - 32 : Int) : ℚ) / ((128 : Int) : ℚ) = 3 / 4 := by norm_num
  have hd : FP.div64 (.fin ((128 - 32 : Int) : ℚ)) (.fin ((128 : Int) : ℚ))
      = .fin (3 / 4) := by
    show FP.round64 (FP.div _ _) = _
    simp only [FP.div, hne, if_false, FP.round64]
    rw [hq, d]
  have hm : FP.mul64 (.fin (3 / 4)) (.fin 100) = .fin 75 := by
    show FP.round64 (FP.mul _ _) = _
    simp only [FP.mul, FP.round64]
    rw [m]
  rw [hd, hm]
  simp only [FP.toFixed, f]

theorem percent_of_23_of_40 :
    FP.toFixed 0 (FP.mul64 (FP.div64 (.fin ((40 - 17 : Int) : ℚ)) (.fin ((40 : Int) : ℚ)))
        (.fin 100))
      = JSVal.fixed (.fin 57) 0 := by
  have d : round64Q (23 / 40) = .fin (5179139571476070 * 2 ^ (-53 : Int)) := by
    have := round64Q_pos (23 / 40) (-1) 5179139571476070 (by norm_num) (by norm_num)
      (by norm_num) (by norm_num) (by norm_num) (by norm_num)
    simpa using this
  have m : round64Q (5179139571476070 * 2 ^ (-53 : Int) * 100)
      = .fin (8092405580431359 * 2 ^ (-47 : Int)) := by
    have := round64Q_pos (5179139571476070 * 2 ^ (-53 : Int) * 100) 5 8092405580431359
      (by norm_num) (by norm_num) (by norm_num) (by norm_num) (by norm_num) (by norm_num)
    simpa using this
  have f : toFixedQ 0 (8092405580431359 * 2 ^ (-47 : Int)) = 57 := by
    have := toFixedQ_zero_floor (8092405580431359 * 2 ^ (-47 : Int)) 57 (by norm_num)
      (by norm_num) (by norm_num) (by norm_num)
    simpa using this
  have hne : ((40 : Int) : ℚ) ≠ 0 := by norm_num
  have hq : ((40 - 17 : Int) : ℚ) / ((40 : Int) : ℚ) = 23 / 40 := by norm_num
  have hd : FP.div64 (.fin ((40 - 17 : Int) : ℚ)) (.fin ((40 : Int) : ℚ))
      = .fin (5179139571476070 * 2 ^ (-53 : Int)) := by
    show FP.round64 (FP.div _ _) = _
    simp only [FP.div, hne, if_false, FP.round64]
    rw [hq, d]
  have hm : FP.mul64 (.fin (5179139571476070 * 2 ^ (-53 : Int))) (.fin 100)
      = .fin (8092405580431359 * 2 ^ (-47 : Int)) := by
    show FP.round64 (FP.mul _ _) = _
    simp only [FP.mul, FP.round64]
    rw [m]
  rw [hd, hm]
  simp only [FP.toFixed, f]

theorem percent_of_1_of_1 :
    FP.toFixed 0 (FP.mul64 (FP.div64 (.fin 1) (.fin 1)) (.fin 100))
      = JSVal.fixed (.fin 100) 0 := by
  have d : round64Q (1 / 1) = .fin 1 := by
    have := round64Q_intCast 1 (by decide) (by decide)
    norm_num at this ⊢
    exact this
  have m : round64Q (1 * 100) = .fin 100 := by
    have := round64Q_intCast 100 (by decide) (by decide)
    norm_num at this ⊢
    exact this
  have f : toFixedQ 0 100 = 100 := by
    have := toFixedQ_zero_intCast 100 (by decide) (by decide)
    norm_num at this ⊢
    exact this
  have hne : (1 : ℚ) ≠ 0 := by norm_num
  have hd : FP.div64 (.fin 1) (.fin 1) = .fin 1 := by
    show FP.round64 (FP.div _ _) = _
    simp only [FP.div, hne, if_false, FP.round64]
    rw [d]
  have hm : FP.mul64 (.fin 1) (.fin 100) = .fin 100 := by
    show FP.round64 (FP.mul _ _) = _
    simp only [FP.mul, FP.round64]
    rw [m]
  rw [hd, hm]
  simp only [FP.toFixed, f]

theorem storage_scenario (now : Int) (scr : Screen) :
    storageEvent ⟨4096, 33554432, 8388608⟩
      = Event.onStorageUpdate (.fin (128 * GiB)) (.fin (32 * GiB)) (.fin (96 * GiB))
    ∧ storagePercent (storageListener (storageEvent ⟨4096, 33554432, 8388608⟩) now scr)
      = JSVal.fixed (.fin 75) 0 := by
  constructor
  · simp [storageEvent, Long.mul, Long.sub, wrapLong, FP.ofInt, GiB]
    norm_num
  · have hev := storageEvent_eq ⟨4096, 33554432, 8388608⟩ (128 * 2 ^ 30) (32 * 2 ^ 30)
      (by decide) (by decide) (by decide) (by decide)
    rw [hev, storagePercent_whole_GiB 128 32 now scr (by decide) (by decide) (by decide)
      (by decide)]
    exact percent_of_96_of_128

theorem storage_forty_GiB (now : Int) (scr : Screen) :
    storageEvent ⟨4096, 10485760, 4456448⟩
      = Event.onStorageUpdate (.fin (40 * GiB)) (.fin (17 * GiB)) (.fin (23 * GiB))
    ∧ storagePercent (storageListener (storageEvent ⟨4096, 10485760, 4456448⟩) now scr)
      = JSVal.fixed (.fin 57) 0 := by
  constructor
  · simp [storageEvent, Long.mul, Long.sub, wrapLong, FP.ofInt, GiB]
    norm_num
  · have hev := storageEvent_eq ⟨4096, 10485760, 4456448⟩ (40 * 2 ^ 30) (17 * 2 ^ 30)
      (by decide) (by decide) (by decide) (by decide)
    rw [hev, storagePercent_whole_GiB 40 17 now scr (by decide) (by decide) (by decide)
      (by decide)]
    exact percent_of_23_of_40

/-- C14, as stated, fails: the reading with block size 4096, 327680 blocks and 131072
available blocks has `total = 1.25 GiB`, `free = 0.5 GiB` and `used = 0.75 GiB`; the
listener stores the strings "1" and "1" for used and total, so `storagePercent` is 100,
while `round(used / total * 100)` is 60. -/
theorem storagePercent_uses_rounded_sizes :
    storageEvent ⟨4096, 327680, 131072⟩
      = Event.onStorageUpdate (.fin 1342177280) (.fin 536870912) (.fin 805306368)
    ∧ (805306368 : ℚ) = 1342177280 - 536870912
    ∧ (storageListener (storageEvent ⟨4096, 327680, 131072⟩) 1 (Screen.initial 0)).storageUsed
      = JSVal.fixed (.fin 1) 0
    ∧ (storageListener (storageEvent ⟨4096, 327680, 131072⟩) 1 (Screen.initial 0)).storageTotal
      = JSVal.fixed (.fin 1) 0
    ∧ storagePercent (storageListener (storageEvent ⟨4096, 327680, 131072⟩) 1
        (Screen.initial 0))
      = JSVal.fixed (.fin 100) 0
    ∧ toFixedQ 0 ((805306368 : ℚ) / 1342177280 * 100) = 60 := by
  have hev : storageEvent ⟨4096, 327680, 131072⟩
      = Event.onStorageUpdate (.fin 1342177280) (.fin 536870912) (.fin 805306368) := by
    simp [storageEvent, Long.mul, Long.sub, wrapLong, FP.ofInt]
  have hevc : storageEvent ⟨4096, 327680, 131072⟩
      = Event.onStorageUpdate (.fin ((1342177280 : Int) : ℚ))
          (.fin ((536870912 : Int) : ℚ)) (.fin ((805306368 : Int) : ℚ)) := by
    rw [hev]
    norm_num
  have hls := storageListener_strings 1342177280 536870912 805306368 1 (Screen.initial 0)
    (by decide) (by decide) (by decide) (by decide) (by decide) (by decide)
  have g1 : ((1342177280 : Int) : ℚ) / GiB = 5 / 4 := by norm_num [GiB]
  have g2 : ((805306368 : Int) : ℚ) / GiB = 3 / 4 := by norm_num [GiB]
  have f1 : toFixedQ 0 (5 / 4) = 1 :=
    toFixedQ_zero_floor (5 / 4) 1 (by norm_num) (by norm_num) (by norm_num) (by norm_num)
  have f2 : toFixedQ 0 (3 / 4) = 1 :=
    toFixedQ_zero_floor (3 / 4) 1 (by norm_num) (by norm_num) (by norm_num) (by norm_num)
  have f4 : toFixedQ 0 ((805306368 : ℚ) / 1342177280 * 100) = 60 := by
    have := toFixedQ_zero_intCast 60 (by decide) (by decide)
    norm_num at this ⊢
    exact this
  rw [g1, g2, f1, f2] at hls
  refine ⟨hev, by norm_num, ?_, ?_, ?_, f4⟩
  · rw [hevc, hls]
  · rw [hevc, hls]
  · rw [hevc, hls, storagePercent_strings _ 1 1 rfl rfl, if_pos (by norm_num)]
    exact percent_of_1_of_1

/-- C14, amended: for every storage reading with `0 < total < 2 ^ 53` bytes and
`0 ≤ free ≤ total`, the `onStorageUpdate` payload has `used = total - free`; after the
storage listener has processed it, `storagePercent` is computed from the whole-GB
strings the listener stored: it is the `toFixed(0)` of
`(round(used / GiB) / round(total / GiB)) * 100` evaluated in binary64 when
`round(total / GiB)` is positive, and 0 otherwise.  When `total` and `free` are whole
multiples of 1 GiB this is the `toFixed(0)` of `(used / total) * 100` evaluated in
binary64; in particular `total = 128 GiB`, `free = 32 GiB` gives `used = 96 GiB` and
`storagePercent = 75`, and `total = 40 GiB`, `free = 17 GiB` gives `used = 23 GiB` and
`storagePercent = 57`, the binary64 product being just below 57.5. -/
theorem storageUpdate_percent (stat : StatFs) (total free : Int) (now : Int) (scr : Screen)
    (htot : Long.mul stat.blockCountLong stat.blockSizeLong = total)
    (hfr : Long.mul stat.availableBlocksLong stat.blockSizeLong = free)
    (hpos : 0 < total) (hrep : total < 2 ^ 53) (hfree0 : 0 ≤ free) (hfree : free ≤ total) :
    storageEvent stat
      = Event.onStorageUpdate (FP.fin (total : ℚ)) (FP.fin (free : ℚ))
          (FP.fin ((total - free : Int) : ℚ))
    ∧ storagePercent (storageListener (storageEvent stat) now scr)
      = (if 0 < toFixedQ 0 ((total : ℚ) / GiB) then
          FP.toFixed 0
            (FP.mul64
              (FP.div64 (.fin (toFixedQ 0 (((total - free : Int) : ℚ) / GiB)))
                (.fin (toFixedQ 0 ((total : ℚ) / GiB))))
              (.fin 100))
        else JSVal.num (.fin 0))
    ∧ (∀ a b : Int, total = a * 2 ^ 30 → free = b * 2 ^ 30 →
        storagePercent (storageListener (storageEvent stat) now scr)
          = FP.toFixed 0
              (FP.mul64 (FP.div64 (.fin ((total - free : Int) : ℚ)) (.fin (total : ℚ)))
                (.fin 100)))
    ∧ storageEvent ⟨4096, 33554432, 8388608⟩
      = Event.onStorageUpdate (.fin (128 * GiB)) (.fin (32 * GiB)) (.fin (96 * GiB))
    ∧ storagePercent (storageListener (storageEvent ⟨4096, 33554432, 8388608⟩) now scr)
      = JSVal.fixed (.fin 75) 0
    ∧ storageEvent ⟨4096, 10485760, 4456448⟩
      = Event.onStorageUpdate (.fin (40 * GiB)) (.fin (17 * GiB)) (.fin (23 * GiB))
    ∧ storagePercent (storageListener (storageEvent ⟨4096, 10485760, 4456448⟩) now scr)
      = JSVal.fixed (.fin 57) 0 := by
  have hev := storageEvent_eq stat total free htot hfr hfree0 hfree
  refine ⟨hev, ?_, ?_, (storage_scenario now scr).1, (storage_scenario now scr).2,
    (storage_forty_GiB now scr).1, (storage_forty_GiB now scr).2⟩
  · rw [hev]
    exact storagePercent_listener total free (total - free) now scr (by omega) hrep hfree0
      (by omega) (by omega) (by omega)
  · intro a b ha hb
    subst ha hb
    rw [hev, storagePercent_whole_GiB a b now scr (by omega) (by omega) (by omega) hrep,
      div64_same_ratio a b (by omega)]

/-- Witness of the amended C14: block size 4096, `2 ^ 25` blocks (128 GiB), `2 ^ 23`
available blocks (32 GiB). -/
theorem storageUpdate_percent_witness :
    storageEvent ⟨4096, 33554432, 8388608⟩
      = Event.onStorageUpdate (FP.fin ((137438953472 : Int) : ℚ))
          (FP.fin ((34359738368 : Int) : ℚ))
          (FP.fin ((137438953472 - 34359738368 : Int) : ℚ))
    ∧ storagePercent (storageListener (storageEvent ⟨4096, 33554432, 8388608⟩) 1
        (Screen.initial 0))
      = JSVal.fixed (.fin 75) 0 :=
  ⟨(storageUpdate_percent ⟨4096, 33554432, 8388608⟩ 137438953472 34359738368 1
      (Screen.initial 0) (by decide) (by decide) (by decide) (by decide) (by decide)
      (by decide)).1,
   (storageUpdate_percent ⟨4096, 33554432, 8388608⟩ 137438953472 34359738368 1
      (Screen.initial 0) (by decide) (by decide) (by decide) (by decide) (by decide)
      (by decide)).2.2.2.2.1⟩

end Pulse
